import Mathlib

/-!
# Token lifecycle of the auth service and the gateway's verification

A shallow embedding of `services/auth-service/main.go` (issuance, refresh
rotation, logout, self-introspection) and of the verification part of
`services/api-gateway/cmd/api-gateway/main.go`.

Conventions of the embedding

* A Go `string` is a Lean `String`.
* A `time.Time` is an `Int`: nanoseconds since the Unix epoch.  A
  `time.Duration` is an `Int` holding a signed 64-bit count of nanoseconds;
  arithmetic on durations wraps (`wrapInt64`).
* The PostgreSQL database behind `st.db` is an explicit value `DB` that every
  handler receives and returns.  What the handler cannot decide itself (the
  clock, the random source, whether a statement fails) is an explicit
  environment argument.
* Third-party code (crypto/sha256, crypto/rsa, bcrypt, golang-jwt) is not part
  of the repository; the primitives taken from it are the fields of `Lib`.
-/

namespace AuthService

/-! ## Time and durations -/

/-- Go `time.Time`, as nanoseconds since the Unix epoch. -/
abbrev Time := Int

/-- Go `time.Duration`: a signed 64-bit number of nanoseconds. -/
abbrev Duration := Int

/-- Go `time.Second`. -/
def Second : Duration := 1000000000

/-- Go `time.Minute`. -/
def Minute : Duration := 60 * Second

/-- Two's complement wrap of an integer into the `int64` range. -/
def wrapInt64 (x : Int) : Int := (x + 2 ^ 63) % 2 ^ 64 - 2 ^ 63

/-- Go `Time.After`: strictly later. -/
def Time.After (t u : Time) : Bool := decide (u < t)

/-- Go `Time.Before`: strictly earlier. -/
def Time.Before (t u : Time) : Bool := decide (t < u)

/-- Go `Time.Add` for a time in the range the service runs in; the sum of a
wall-clock time and an `int64` duration does not overflow a `time.Time`. -/
def Time.Add (t : Time) (d : Duration) : Time := t + d

/-- Go `Time.Truncate(time.Second)`: round down to a whole second. -/
def Time.TruncateSecond (t : Time) : Time := t - t % Second

/-- Go `Time.Unix`: whole seconds since the epoch. -/
def Time.Unix (t : Time) : Int := t / Second

/-- Go `Duration.Seconds` followed by the `int64` conversion used in
`issueTokens`: the whole seconds of the duration, rounded toward zero.  This is
exact for a duration of whole seconds; the rounding of the intermediate
`float64` for other durations is not modelled. -/
def Duration.SecondsInt64 (d : Duration) : Int := Int.tdiv d Second

/-! ## Strings: `strings.TrimSpace`, `strconv.ParseInt` -/

/-- Go `unicode.IsSpace`. -/
def isSpace (c : Char) : Bool :=
  let n := c.toNat
  n == 0x09 || n == 0x0A || n == 0x0B || n == 0x0C || n == 0x0D || n == 0x20 ||
  n == 0x85 || n == 0xA0 || n == 0x1680 || (0x2000 ≤ n && n ≤ 0x200A) ||
  n == 0x2028 || n == 0x2029 || n == 0x202F || n == 0x205F || n == 0x3000

/-- Drop the leading white space of a list of characters. -/
def trimLeft : List Char → List Char
  | [] => []
  | c :: cs => if isSpace c then trimLeft cs else c :: cs

/-- Go `strings.TrimSpace` on the characters of a string. -/
def trimSpaceChars (cs : List Char) : List Char :=
  (trimLeft (trimLeft cs).reverse).reverse

/-- Go `strings.TrimSpace`. -/
def TrimSpace (s : String) : String := String.mk (trimSpaceChars s.toList)

/-- Value of a decimal digit, `none` for any other character. -/
def digitVal (c : Char) : Option Nat :=
  if 48 ≤ c.toNat ∧ c.toNat ≤ 57 then some (c.toNat - 48) else none

/-- Accumulate decimal digits as `strconv.ParseUint` does in base 10; `none`
is the syntax error for a character that is not a digit. -/
def parseDigits : List Char → Nat → Option Nat
  | [], acc => some acc
  | c :: cs, acc =>
    match digitVal c with
    | none => none
    | some d => parseDigits cs (acc * 10 + d)

/-- Go `strconv.ParseInt(s, 10, 64)`: `some n` when `err == nil`, `none` when
an error is returned (empty input, a character that is not a digit after the
optional sign, or a value outside the `int64` range). -/
def ParseInt (s : String) : Option Int :=
  let body (neg : Bool) (ds : List Char) : Option Int :=
    match ds with
    | [] => none
    | _ =>
      match parseDigits ds 0 with
      | none => none
      | some un =>
        if neg then
          if un ≤ 2 ^ 63 then some (-(un : Int)) else none
        else
          if un < 2 ^ 63 then some (un : Int) else none
  match s.toList with
  | [] => none
  | c :: cs =>
    if c = '+' then body false cs
    else if c = '-' then body true cs
    else body false (c :: cs)

/-- Environment reader shared by the services: `getenv(k, def)` with the
current value `v` of the variable (`""` when unset). -/
def getenv (v : String) (dflt : String) : String :=
  if v = "" then dflt else v

/-- Source: `mustDurationSeconds`.  The product `time.Duration(n) * time.Second`
is an `int64` multiplication and wraps. -/
def mustDurationSeconds (s : String) : Duration :=
  match ParseInt (TrimSpace s) with
  | none => 15 * Minute
  | some n => if n ≤ 0 then 15 * Minute else wrapInt64 (n * Second)

/-! ## Encodings: hex, unpadded URL-safe base64, UTF-8 -/

/-- The sixteen lower-case hexadecimal digits used by `hex.EncodeToString`. -/
def hexDigit (n : Nat) : Char := "0123456789abcdef".toList.getD n '0'

/-- Go `hex.EncodeToString`: two lower-case digits per byte. -/
def hexEncode (bs : List Nat) : String :=
  String.mk (bs.flatMap fun b => [hexDigit (b / 16 % 16), hexDigit (b % 16)])

/-- The alphabet of `base64.URLEncoding`. -/
def encodeURL : List Char :=
  "ABCDEFGHIJKLMNOPQRSTUVWXYZabcdefghijklmnopqrstuvwxyz0123456789-_".toList

/-- The character of a 6-bit group. -/
def urlChar (n : Nat) : Char := encodeURL.getD n 'A'

/-- Go `base64.RawURLEncoding.EncodeToString` on a list of bytes: three bytes
give four characters, a rest of two bytes gives three, a rest of one byte
gives two, and there is no padding. -/
def rawURLEncodeChars : List Nat → List Char
  | b0 :: b1 :: b2 :: rest =>
    urlChar (b0 / 4) :: urlChar (b0 % 4 * 16 + b1 / 16) ::
      urlChar (b1 % 16 * 4 + b2 / 64) :: urlChar (b2 % 64) :: rawURLEncodeChars rest
  | [b0, b1] => [urlChar (b0 / 4), urlChar (b0 % 4 * 16 + b1 / 16), urlChar (b1 % 16 * 4)]
  | [b0] => [urlChar (b0 / 4), urlChar (b0 % 4 * 16)]
  | [] => []

/-- Go `base64.RawURLEncoding.EncodeToString`. -/
def rawURLEncode (bs : List Nat) : String := String.mk (rawURLEncodeChars bs)

/-- The UTF-8 bytes of one character. -/
def utf8Char (c : Char) : List Nat :=
  let n := c.toNat
  if n < 0x80 then [n]
  else if n < 0x800 then [0xC0 + n / 64, 0x80 + n % 64]
  else if n < 0x10000 then [0xE0 + n / 4096, 0x80 + n / 64 % 64, 0x80 + n % 64]
  else [0xF0 + n / 262144, 0x80 + n / 4096 % 64, 0x80 + n / 64 % 64, 0x80 + n % 64]

/-- Go `[]byte(s)`: the UTF-8 bytes of a string. -/
def bytesOf (s : String) : List Nat := s.toList.flatMap utf8Char

/-! ## Keys, claims, tokens -/

/-- Go `rsa.PublicKey`. -/
structure PublicKey where
  N : Nat
  E : Nat
deriving DecidableEq, Repr

/-- Go `rsa.PrivateKey` (the public part and the private exponent). -/
structure PrivateKey where
  PublicKey : PublicKey
  D : Nat
deriving DecidableEq, Repr

/-- Source: `customClaims`, with the embedded `jwt.RegisteredClaims` written
out.  A `*jwt.NumericDate` is an optional time. -/
structure customClaims where
  Roles : List String
  Issuer : String
  Subject : String
  Audience : List String
  ExpiresAt : Option Time
  NotBefore : Option Time
  IssuedAt : Option Time
  ID : String
deriving DecidableEq, Repr

/-- Go `jwt.MapClaims` as the library's validator reads it: the result of each
getter of the `jwt.Claims` interface.  The outer `none` is the getter's error
(a member of the wrong JSON type), the inner `none` an absent member. -/
structure MapClaims where
  exp : Option (Option Time)
  nbf : Option (Option Time)
  aud : Option (List String)
  iss : Option String
deriving DecidableEq, Repr

/-- Go `jwt.Token` after `Parser.ParseUnverified`: the algorithm named in the
header (`token.Method.Alg()`), the decoded claims, the text that was signed
and the signature bytes. -/
structure Token (C : Type) where
  Alg : String
  Claims : C
  SigningString : String
  Signature : List Nat

/-- Primitives of the libraries the services call.  Their code is not part of
the repository, so the embedding takes them as given functions. -/
structure Lib where
  /-- Go `sha256.Sum256`: the digest of a byte string. -/
  sum256 : List Nat → List Nat
  /-- Go `unicode.ToLower` on one rune. -/
  toLowerRune : Char → Char
  /-- Go `bcrypt.CompareHashAndPassword(hash, password) == nil`. -/
  compareHashAndPassword : String → String → Bool
  /-- Go `jwt.NewWithClaims(jwt.SigningMethodRS256, claims).SignedString(key)`;
  `none` when an error is returned. -/
  signedString : customClaims → PrivateKey → Option String
  /-- Go `Parser.ParseUnverified` into `&customClaims{}`; `none` when the string
  is malformed or names no registered signing method. -/
  parseUnverified : String → Option (Token customClaims)
  /-- Go `Parser.ParseUnverified` into `jwt.MapClaims`. -/
  parseUnverifiedMap : String → Option (Token MapClaims)
  /-- Go `token.Method.Verify(signingString, signature, key) == nil` for the
  signing method registered under the given name. -/
  verify : String → String → List Nat → PublicKey → Bool

/-- Go `strings.ToLower`. -/
def ToLower (lib : Lib) (s : String) : String := String.mk (s.toList.map lib.toLowerRune)

/-- Source: `hashToken`. -/
def hashToken (lib : Lib) (raw : String) : String :=
  hexEncode (lib.sum256 (bytesOf raw))

/-- Source: `newRefreshToken`; `rand` is what `rand.Read` put into the 32-byte
buffer, `none` when it returned an error. -/
def newRefreshToken (rand : Option (List Nat)) : Except String String :=
  match rand with
  | none => .error "rand"
  | some b => .ok (rawURLEncode b)

/-! ## The validator of golang-jwt -/

/-- What `Validator.Validate` reads from a claim set. -/
structure ClaimsView where
  exp : Option (Option Time)
  nbf : Option (Option Time)
  aud : Option (List String)
  iss : Option String

/-- The getters of `jwt.RegisteredClaims`; none of them fails. -/
def customClaims.view (c : customClaims) : ClaimsView :=
  { exp := some c.ExpiresAt, nbf := some c.NotBefore, aud := some c.Audience,
    iss := some c.Issuer }

/-- The getters of `jwt.MapClaims`. -/
def MapClaims.view (c : MapClaims) : ClaimsView :=
  { exp := c.exp, nbf := c.nbf, aud := c.aud, iss := c.iss }

/-- Go `Validator.Validate` with `WithAudience` and `WithIssuer` and no leeway:
`exp` and `nbf` are checked when present, the audience and the issuer are
required when an expected value is configured.  An empty expected value
configures nothing; `main` never passes one, since `getenv` falls back to a
default that is not empty. -/
def validateClaims (v : ClaimsView) (expectedAud expectedIss : String) (now : Time) : Bool :=
  (match v.exp with
    | none => false
    | some none => true
    | some (some e) => Time.Before now e) &&
  (match v.nbf with
    | none => false
    | some none => true
    | some (some n) => !Time.Before now n) &&
  (if expectedAud = "" then true else
    match v.aud with
    | none => false
    | some aud => aud.any fun a => a == expectedAud) &&
  (if expectedIss = "" then true else
    match v.iss with
    | none => false
    | some iss => iss == expectedIss)

/-- Go `Parser.ParseWithClaims`: parse, check the permitted methods when
`WithValidMethods` was given, ask the key function for the key, verify the
signature, validate the claims.  `some token` stands for `err == nil` with
`token.Valid` set; every failure is `none`. -/
def parseWithClaims {C : Type} (lib : Lib) (parse : String → Option (Token C))
    (view : C → ClaimsView) (tokenString : String)
    (keyFunc : Token C → Except String PublicKey) (validMethods : Option (List String))
    (expectedAud expectedIss : String) (now : Time) : Option (Token C) :=
  match parse tokenString with
  | none => none
  | some token =>
    if (match validMethods with
        | none => true
        | some ms => ms.contains token.Alg) then
      match keyFunc token with
      | .error _ => none
      | .ok key =>
        if lib.verify token.Alg token.SigningString token.Signature key then
          if validateClaims (view token.Claims) expectedAud expectedIss now then some token
          else none
        else none
    else none

/-! ## The database -/

/-- A row of `users`, as far as the handlers read it. -/
structure User where
  id : String
  email : String
  password_hash : String
  status : String
deriving DecidableEq, Repr

/-- A row of `refresh_tokens`, as far as the handlers read or write it. -/
structure RefreshTokenRecord where
  user_id : String
  token_hash : String
  expires_at : Time
  revoked : Bool
deriving DecidableEq, Repr

/-- The tables behind `st.db`.  `user_roles` holds the rows of the join of
`roles` and `user_roles` that `getUserRoles` selects from: a user id and a
role name, in the order the database returns them. -/
structure DB where
  users : List User
  user_roles : List (String × String)
  refresh_tokens : List RefreshTokenRecord
deriving DecidableEq, Repr

/-- Outcome of a statement that did not produce its result. -/
inductive DbError where
  /-- Go `sql.ErrNoRows`. -/
  | noRows
  /-- A unique-key violation reported by the database. -/
  | duplicateKey
  /-- Any other failure: no connection, context deadline exceeded, ... -/
  | failure
deriving DecidableEq, Repr

/-- The query of `handleLogin`:
`SELECT id::text, password_hash, status FROM users WHERE email=$1`, scanned
with `QueryRow(...).Scan`.  `fails` is a failure of the statement itself. -/
def DB.selectUserByEmail (db : DB) (email : String) (fails : Bool) : Except DbError User :=
  if fails then .error .failure
  else match db.users.find? fun u => u.email == email with
    | none => .error .noRows
    | some u => .ok u

/-- The query of `validateRefreshToken`:
`SELECT user_id::text, expires_at, revoked FROM refresh_tokens WHERE token_hash = $1`,
scanned with `QueryRow(...).Scan`. -/
def DB.selectRefreshToken (db : DB) (h : String) (fails : Bool) :
    Except DbError RefreshTokenRecord :=
  if fails then .error .failure
  else match db.refresh_tokens.find? fun r => r.token_hash == h with
    | none => .error .noRows
    | some r => .ok r

/-- The statement of `revokeRefreshToken`:
`UPDATE refresh_tokens SET revoked=true WHERE token_hash=$1`.  It touches every
row with that hash and succeeds also when there is none.  A statement that
fails changes nothing. -/
def DB.updateRevoked (db : DB) (h : String) (fails : Bool) : Except DbError DB :=
  if fails then .error .failure
  else .ok { db with refresh_tokens := db.refresh_tokens.map fun r =>
      if r.token_hash == h then { r with revoked := true } else r }

/-- Modelled from the spec: the table declaration of `refresh_tokens` is not in
the sources; the spec gives its layout as "refresh-token table keyed by token
hash (unique), columns for owning principal, expiry timestamp, revoked
boolean", and says a record is created with revoked = false.  The statement of
`issueTokens`,
`INSERT INTO refresh_tokens(user_id, token_hash, expires_at) VALUES ($1::uuid,$2,$3)`,
therefore fails on a hash that is already in the table and otherwise appends
an unrevoked row. -/
def DB.insertRefreshToken (db : DB) (userID h : String) (expires : Time) (fails : Bool) :
    Except DbError DB :=
  if fails then .error .failure
  else if db.refresh_tokens.any fun r => r.token_hash == h then .error .duplicateKey
  else .ok { db with refresh_tokens := db.refresh_tokens ++
      [{ user_id := userID, token_hash := h, expires_at := expires, revoked := false }] }

/-- The query of `getUserRoles`: the role names joined to the user. -/
def DB.selectRoleNames (db : DB) (userID : String) (fails : Bool) : Except DbError (List String) :=
  if fails then .error .failure
  else .ok ((db.user_roles.filter fun p => p.1 == userID).map fun p => p.2)

/-! ## The auth service -/

/-- Source: `appState` without the database handle, which is passed along
explicitly. -/
structure appState where
  privateKey : PrivateKey
  publicKey : PublicKey
  env : String
  appName : String
  issuer : String
  audience : String
  accessTTL : Duration
  refreshTTL : Duration
deriving DecidableEq, Repr

/-- Source: the configuration part of `main`: `environ` gives the value of an
environment variable (`""` when unset), the keys are the ones loaded from
their PEM texts. -/
def newAppState (environ : String → String) (privateKey : PrivateKey)
    (publicKey : PublicKey) : appState :=
  { privateKey := privateKey
    publicKey := publicKey
    env := getenv (environ "ENVIRONMENT") "dev"
    appName := getenv (environ "APP_NAME") "auth-service"
    issuer := getenv (environ "JWT_ISSUER") "fintech-auth"
    audience := getenv (environ "JWT_AUDIENCE") "fintech-platform"
    accessTTL := mustDurationSeconds (getenv (environ "ACCESS_TOKEN_TTL_SECONDS") "900")
    refreshTTL := mustDurationSeconds (getenv (environ "REFRESH_TOKEN_TTL_SECONDS") "604800") }

/-- Source: `tokenResponse`. -/
structure tokenResponse where
  AccessToken : String
  RefreshToken : String
  TokenType : String
  ExpiresIn : Int
deriving DecidableEq, Repr

/-- Source: `loginRequest`. -/
structure loginRequest where
  Email : String
  Password : String
deriving DecidableEq, Repr

/-- Source: `refreshRequest`. -/
structure refreshRequest where
  RefreshToken : String
deriving DecidableEq, Repr

/-- Source: `logoutRequest`. -/
structure logoutRequest where
  RefreshToken : String
deriving DecidableEq, Repr

/-- An HTTP request as a handler reads it: the method, the `Authorization`
header and the result of decoding the JSON body into the handler's request
type (`none` when `Decode` returns an error). -/
structure Request (α : Type) where
  Method : String
  Authorization : String
  Json : Option α

/-- What a handler writes as the response body. -/
inductive Body where
  /-- A plain-text body (`http.Error`, `writeText`). -/
  | text (s : String)
  /-- A `tokenResponse` written by `writeJSON`. -/
  | tokens (r : tokenResponse)
  /-- The acknowledgment `{"ok": true}` of `handleLogout`. -/
  | ack
  /-- The claims `handleMe` echoes: sub, roles, iss, aud, exp. -/
  | me (sub : String) (roles : List String) (iss : String) (aud : List String) (exp : Int)
deriving DecidableEq, Repr

/-- Status code and body of an HTTP response. -/
structure Response where
  status : Nat
  body : Body
deriving DecidableEq, Repr

/-- Go `http.Error`: the message and a newline as plain text. -/
def httpError (msg : String) (code : Nat) : Response :=
  { status := code, body := .text (msg ++ "\n") }

/-- Source: `writeJSON` of a body value. -/
def writeJSON (code : Nat) (b : Body) : Response := { status := code, body := b }

/-- Source: `writeText`. -/
def writeText (code : Nat) (s : String) : Response := { status := code, body := .text s }

/-- What `issueTokens` takes from its surroundings: the clock, the bytes read
from `crypto/rand` (`none`: the read failed) and whether the INSERT fails. -/
structure IssueEnv where
  now : Time
  rand : Option (List Nat)
  insertFails : Bool
deriving DecidableEq, Repr

/-- The claims `issueTokens` builds; `jwt.NewNumericDate` truncates a time to
whole seconds. -/
def accessClaims (st : appState) (now : Time) (userID : String) (roles : List String) :
    customClaims :=
  { Roles := roles
    Issuer := st.issuer
    Subject := userID
    Audience := [st.audience]
    ExpiresAt := some (Time.TruncateSecond (Time.Add now st.accessTTL))
    NotBefore := none
    IssuedAt := some (Time.TruncateSecond now)
    ID := "" }

/-- Source: `issueTokens`.  Returns the result and the database afterwards. -/
def issueTokens (lib : Lib) (st : appState) (db : DB) (env : IssueEnv) (userID : String)
    (roles : List String) : Except String tokenResponse × DB :=
  let now := env.now
  match lib.signedString (accessClaims st now userID roles) st.privateKey with
  | none => (.error "sign", db)
  | some accessSigned =>
    match newRefreshToken env.rand with
    | .error e => (.error e, db)
    | .ok refreshRaw =>
      let refreshHash := hashToken lib refreshRaw
      let refreshExp := Time.Add now st.refreshTTL
      match db.insertRefreshToken userID refreshHash refreshExp env.insertFails with
      | .error _ => (.error "insert", db)
      | .ok db' =>
        (.ok { AccessToken := accessSigned
               RefreshToken := refreshRaw
               TokenType := "Bearer"
               ExpiresIn := Duration.SecondsInt64 st.accessTTL }, db')

/-- Source: `getUserRoles`. -/
def getUserRoles (db : DB) (userID : String) (fails : Bool) : Except DbError (List String) :=
  match db.selectRoleNames userID fails with
  | .error e => .error e
  | .ok names => if names.length = 0 then .ok ["user"] else .ok names

/-- Source: `validateRefreshToken`; `now` is the `time.Now()` of the expiry
check. -/
def validateRefreshToken (lib : Lib) (db : DB) (now : Time) (fails : Bool) (raw : String) :
    String × Bool :=
  let h := hashToken lib raw
  match db.selectRefreshToken h fails with
  | .error _ => ("", false)
  | .ok row =>
    if row.revoked || Time.After now row.expires_at then ("", false)
    else (row.user_id, true)

/-- Source: `revokeRefreshToken`.  Returns the error, if any, and the database
afterwards. -/
def revokeRefreshToken (lib : Lib) (db : DB) (fails : Bool) (raw : String) :
    Option DbError × DB :=
  let h := hashToken lib raw
  match db.updateRevoked h fails with
  | .error e => (some e, db)
  | .ok db' => (none, db')

/-- What `handleLogin` takes from its surroundings. -/
structure LoginEnv where
  lookupFails : Bool
  rolesFail : Bool
  issue : IssueEnv
deriving DecidableEq, Repr

/-- Source: `handleLogin`. -/
def handleLogin (lib : Lib) (st : appState) (db : DB) (env : LoginEnv)
    (r : Request loginRequest) : Response × DB :=
  if r.Method != "POST" then (httpError "method not allowed" 405, db) else
  match r.Json with
  | none => (httpError "invalid json" 400, db)
  | some req =>
    let email := ToLower lib (TrimSpace req.Email)
    let pass := TrimSpace req.Password
    if email == "" || pass == "" then
      (httpError "email and password are required" 400, db)
    else
      match db.selectUserByEmail email env.lookupFails with
      | .error _ => (httpError "invalid credentials" 401, db)
      | .ok u =>
        if u.status != "active" then (httpError "user not active" 403, db)
        else if !lib.compareHashAndPassword u.password_hash pass then
          (httpError "invalid credentials" 401, db)
        else
          match getUserRoles db u.id env.rolesFail with
          | .error _ => (httpError "failed to load roles" 500, db)
          | .ok roles =>
            match issueTokens lib st db env.issue u.id roles with
            | (.error _, db') => (httpError "failed to issue tokens" 500, db')
            | (.ok resp, db') => (writeJSON 200 (.tokens resp), db')

/-- What `handleRefresh` takes from its surroundings: the clock read in
`validateRefreshToken`, the failure of each of its statements, and the
surroundings of `issueTokens`. -/
structure RefreshEnv where
  now : Time
  lookupFails : Bool
  rolesFail : Bool
  revokeFails : Bool
  issue : IssueEnv
deriving DecidableEq, Repr

/-- Source: `handleRefresh`. -/
def handleRefresh (lib : Lib) (st : appState) (db : DB) (env : RefreshEnv)
    (r : Request refreshRequest) : Response × DB :=
  if r.Method != "POST" then (httpError "method not allowed" 405, db) else
  match r.Json with
  | none => (httpError "invalid json" 400, db)
  | some req =>
    let raw := TrimSpace req.RefreshToken
    if raw == "" then (httpError "refresh_token is required" 400, db)
    else
      match validateRefreshToken lib db env.now env.lookupFails raw with
      | (_, false) => (httpError "invalid refresh token" 401, db)
      | (userID, true) =>
        match getUserRoles db userID env.rolesFail with
        | .error _ => (httpError "failed to load roles" 500, db)
        | .ok roles =>
          match revokeRefreshToken lib db env.revokeFails raw with
          | (some _, db1) => (httpError "failed to revoke refresh" 500, db1)
          | (none, db1) =>
            match issueTokens lib st db1 env.issue userID roles with
            | (.error _, db2) => (httpError "failed to issue tokens" 500, db2)
            | (.ok resp, db2) => (writeJSON 200 (.tokens resp), db2)

/-- Source: `handleLogout`; `revokeFails` is the failure of the UPDATE. -/
def handleLogout (lib : Lib) (db : DB) (revokeFails : Bool) (r : Request logoutRequest) :
    Response × DB :=
  if r.Method != "POST" then (httpError "method not allowed" 405, db) else
  match r.Json with
  | none => (httpError "invalid json" 400, db)
  | some req =>
    let raw := TrimSpace req.RefreshToken
    if raw == "" then (httpError "refresh_token is required" 400, db)
    else
      let (_, db1) := revokeRefreshToken lib db revokeFails raw
      (writeJSON 200 .ack, db1)

/-- Go `strings.SplitN(s, " ", 2)`: the text before the first space and the text
after it, or `none` when there is no space (a result of length one). -/
def splitFirstSpace : List Char → Option (List Char × List Char)
  | [] => none
  | c :: cs =>
    if c = ' ' then some ([], cs)
    else match splitFirstSpace cs with
      | none => none
      | some (a, b) => some (c :: a, b)

/-- Source: `bearerToken`. -/
def bearerToken (lib : Lib) (authHeader : String) : String :=
  let authHeader := TrimSpace authHeader
  if authHeader == "" then ""
  else
    match splitFirstSpace authHeader.toList with
    | none => ""
    | some (p0, p1) =>
      if ToLower lib (String.mk p0) != "bearer" then ""
      else TrimSpace (String.mk p1)

/-- Source: the key function `handleMe` passes to `jwt.ParseWithClaims`;
`jwt.SigningMethodRS256.Alg()` is the text RS256. -/
def keyFunc (st : appState) (token : Token customClaims) : Except String PublicKey :=
  if token.Alg != "RS256" then .error ("unexpected alg: " ++ token.Alg)
  else .ok st.publicKey

/-- Source: `handleMe`; `now` is the clock of the library's validator.  The
result is `none` when the handler panics on `claims.ExpiresAt` being nil and
writes no response. -/
def handleMe (lib : Lib) (st : appState) (now : Time) (r : Request Unit) : Option Response :=
  if r.Method != "GET" then some (httpError "method not allowed" 405) else
  let tokenStr := bearerToken lib r.Authorization
  if tokenStr == "" then some (httpError "missing bearer token" 401)
  else
    match parseWithClaims lib lib.parseUnverified customClaims.view tokenStr (keyFunc st)
        none st.audience st.issuer now with
    | none => some (httpError "invalid token" 401)
    | some parsed =>
      let claims := parsed.Claims
      match claims.ExpiresAt with
      | none => none
      | some exp =>
        some (writeJSON 200
          (.me claims.Subject claims.Roles claims.Issuer claims.Audience (Time.Unix exp)))

/-! ## Sequences of operations on the store -/

/-- One call that may write to `refresh_tokens`, with everything it takes from
its surroundings.  `issue` is a direct call of `issueTokens` (as made by
`handleRegister`), `revoke` a direct call of `revokeRefreshToken`. -/
inductive Op where
  | issue (env : IssueEnv) (userID : String) (roles : List String)
  | revoke (fails : Bool) (raw : String)
  | login (env : LoginEnv) (r : Request loginRequest)
  | refresh (env : RefreshEnv) (r : Request refreshRequest)
  | logout (fails : Bool) (r : Request logoutRequest)

/-- The database after one operation. -/
def Op.apply (lib : Lib) (st : appState) (db : DB) : Op → DB
  | .issue env userID roles => (issueTokens lib st db env userID roles).2
  | .revoke fails raw => (revokeRefreshToken lib db fails raw).2
  | .login env r => (handleLogin lib st db env r).2
  | .refresh env r => (handleRefresh lib st db env r).2
  | .logout fails r => (handleLogout lib db fails r).2

/-- The database after a sequence of operations, one after the other. -/
def runOps (lib : Lib) (st : appState) (db : DB) (ops : List Op) : DB :=
  ops.foldl (Op.apply lib st) db

/-! ## Two refresh requests whose store operations interleave -/

/-- Where a worker stands inside `handleRefresh` after the request has been
decoded: before each of its four store operations, or finished with a
response. -/
inductive RefreshPoint where
  | atValidate
  | atRoles (userID : String)
  | atRevoke (userID : String) (roles : List String)
  | atIssue (userID : String) (roles : List String)
  | finished (resp : Response)
deriving DecidableEq, Repr

/-- One store operation of `handleRefresh` on the trimmed token `raw`: the
worker performs the operation it stands before and moves on. -/
def refreshStep (lib : Lib) (st : appState) (env : RefreshEnv) (raw : String) :
    RefreshPoint → DB → RefreshPoint × DB
  | .atValidate, db =>
    match validateRefreshToken lib db env.now env.lookupFails raw with
    | (_, false) => (.finished (httpError "invalid refresh token" 401), db)
    | (userID, true) => (.atRoles userID, db)
  | .atRoles userID, db =>
    match getUserRoles db userID env.rolesFail with
    | .error _ => (.finished (httpError "failed to load roles" 500), db)
    | .ok roles => (.atRevoke userID roles, db)
  | .atRevoke userID roles, db =>
    match revokeRefreshToken lib db env.revokeFails raw with
    | (some _, db1) => (.finished (httpError "failed to revoke refresh" 500), db1)
    | (none, db1) => (.atIssue userID roles, db1)
  | .atIssue userID roles, db =>
    match issueTokens lib st db env.issue userID roles with
    | (.error _, db2) => (.finished (httpError "failed to issue tokens" 500), db2)
    | (.ok resp, db2) => (.finished (writeJSON 200 (.tokens resp)), db2)
  | .finished resp, db => (.finished resp, db)

/-- Two workers and the database they share. -/
structure Race where
  a : RefreshPoint
  b : RefreshPoint
  db : DB
deriving DecidableEq, Repr

/-- Run a schedule: `true` lets the first worker perform its next store
operation, `false` the second. -/
def runRace (lib : Lib) (st : appState) (envA envB : RefreshEnv) (raw : String) :
    List Bool → Race → Race
  | [], s => s
  | true :: rest, s =>
    let (a', db') := refreshStep lib st envA raw s.a s.db
    runRace lib st envA envB raw rest { a := a', b := s.b, db := db' }
  | false :: rest, s =>
    let (b', db') := refreshStep lib st envB raw s.b s.db
    runRace lib st envA envB raw rest { a := s.a, b := b', db := db' }

/-! ## Predicates on the store -/

/-- A property of the database that both writing statements keep: the UPDATE
of `revokeRefreshToken`, and the INSERT of `issueTokens` for every new hash
that satisfies `ok`. -/
structure StoreInvariant (ok : String → Prop) (P : DB → Prop) : Prop where
  update : ∀ (db : DB) (h : String) (fails : Bool) (db' : DB),
    P db → db.updateRevoked h fails = .ok db' → P db'
  insert : ∀ (db : DB) (u h : String) (e : Time) (fails : Bool) (db' : DB),
    P db → ok h → db.insertRefreshToken u h e fails = .ok db' → P db'

/-- The random bytes an operation hands to `newRefreshToken` when it gets as
far as issuing. -/
def Op.rand : Op → Option (List Nat)
  | .issue env _ _ => env.rand
  | .revoke _ _ => none
  | .login env _ => env.issue.rand
  | .refresh env _ => env.issue.rand
  | .logout _ _ => none

/-- No operation of `ops` draws a refresh value whose hash is `h`. -/
def DrawsAvoid (lib : Lib) (h : String) (ops : List Op) : Prop :=
  ∀ op ∈ ops, ∀ b, op.rand = some b → hashToken lib (rawURLEncode b) ≠ h

/-- The table has no row with the hash `h`. -/
def Absent (h : String) (db : DB) : Prop :=
  ∀ r ∈ db.refresh_tokens, r.token_hash ≠ h

/-- The hash `h` is used up: the table has a row with this hash and every row
with this hash is revoked. -/
def Spent (h : String) (db : DB) : Prop :=
  (∃ r ∈ db.refresh_tokens, r.token_hash = h) ∧
    ∀ r ∈ db.refresh_tokens, r.token_hash = h → r.revoked = true

/-- The record `r` is still in the table `rows`: unchanged, or flipped from
unrevoked to revoked. -/
def RecordKept (r : RefreshTokenRecord) (rows : List RefreshTokenRecord) : Prop :=
  r ∈ rows ∨ (r.revoked = false ∧ { r with revoked := true } ∈ rows)

/-- Every record of `old` is still in `new`, and a revoked one is unchanged. -/
def RecordsKept (old new : DB) : Prop :=
  ∀ r ∈ old.refresh_tokens, RecordKept r new.refresh_tokens

/-- The public key `pub` matches the private key `priv`: whatever
`SignedString` returns for a claim set under `priv` is a non-empty token that
parses back to the same claim set with the header algorithm RS256, and whose
RS256 signature verifies under `pub`. -/
def Lib.KeyPair (lib : Lib) (priv : PrivateKey) (pub : PublicKey) : Prop :=
  ∀ (c : customClaims) (s : String), lib.signedString c priv = some s →
    s ≠ "" ∧ ∃ t, lib.parseUnverified s = some t ∧ t.Alg = "RS256" ∧ t.Claims = c ∧
      lib.verify "RS256" t.SigningString t.Signature pub = true

/-! ## A concrete library for evaluating the definitions -/

/-- A stand-in for the library primitives, used to evaluate the definitions on
concrete inputs: the digest is the identity on byte strings, lower-casing is
the ASCII one, a password hash is the password behind a tag, and the only
claim set that can be signed is `c0`, whose token is the text `signed`. -/
def demoLib (c0 : customClaims) (priv : PrivateKey) : Lib :=
  { sum256 := fun bs => bs
    toLowerRune := Char.toLower
    compareHashAndPassword := fun h p => h == "bcrypt:" ++ p
    signedString := fun c k => if c = c0 ∧ k = priv then some "signed" else none
    parseUnverified := fun s =>
      if s = "signed" then
        some { Alg := "RS256", Claims := c0, SigningString := "signed", Signature := [priv.D] }
      else if s = "unsigned" then
        some { Alg := "none", Claims := c0, SigningString := "unsigned", Signature := [] }
      else none
    parseUnverifiedMap := fun s =>
      if s = "unsigned" then
        some { Alg := "none"
               Claims := { exp := some c0.ExpiresAt, nbf := some none,
                           aud := some c0.Audience, iss := some c0.Issuer }
               SigningString := "unsigned", Signature := [] }
      else none
    verify := fun alg text sig key =>
      alg == "RS256" && text == "signed" && sig == [priv.D] && key == priv.PublicKey }

/-- A key pair for the concrete scenarios. -/
def demoKey : PrivateKey := { PublicKey := { N := 3233, E := 17 }, D := 413 }

/-- The state `main` builds when no environment variable is set. -/
def demoState : appState := newAppState (fun _ => "") demoKey demoKey.PublicKey

/-- The claims issued to the principal `u1` at second 5. -/
def demoClaims : customClaims := accessClaims demoState 5000000000 "u1" ["user"]

/-- The library of the concrete scenarios. -/
def demo : Lib := demoLib demoClaims demoKey

/-- The record of the refresh token `tokA`, owned by `u1`, expiring at second 9. -/
def demoRecord : RefreshTokenRecord :=
  { user_id := "u1", token_hash := hashToken demo "tokA", expires_at := 9000000000,
    revoked := false }

/-- A database with one principal, who has been suspended after logging in,
and the one refresh token issued to them. -/
def demoDB : DB :=
  { users := [{ id := "u1", email := "a@b.c", password_hash := "bcrypt:pw",
                status := "suspended" }]
    user_roles := []
    refresh_tokens := [demoRecord] }

/-- A refresh request presenting `tokA`. -/
def demoRefresh : Request refreshRequest :=
  { Method := "POST", Authorization := "", Json := some { RefreshToken := "tokA" } }

/-- Surroundings in which every statement succeeds: the expiry check runs at
second `now`, tokens are issued at second 5 and every random byte is `b`. -/
def demoEnv (now : Time) (b : Nat) : RefreshEnv :=
  { now := now, lookupFails := false, rolesFail := false, revokeFails := false,
    issue := { now := 5000000000, rand := some (List.replicate 32 b), insertFails := false } }

/-! ## Reading back the URL-safe encoding -/

/-- The characters of the URL-safe alphabet: A–Z, a–z, 0–9, `-` and `_`. -/
def isURLSafe (c : Char) : Bool :=
  ('A' ≤ c && c ≤ 'Z') || ('a' ≤ c && c ≤ 'z') || ('0' ≤ c && c ≤ '9') || c == '-' || c == '_'

/-- The 6-bit group a character of the alphabet stands for. -/
def urlIndex (c : Char) : Nat := encodeURL.indexOf c

/-- The bytes behind an unpadded URL-safe encoding: four characters give three
bytes, a rest of three characters gives two, a rest of two gives one.  It is
the inverse of `rawURLEncodeChars` and serves to show that the encoding loses
nothing. -/
def rawURLDecodeChars : List Char → List Nat
  | c0 :: c1 :: c2 :: c3 :: rest =>
    (urlIndex c0 * 4 + urlIndex c1 / 16) :: (urlIndex c1 % 16 * 16 + urlIndex c2 / 4) ::
      (urlIndex c2 % 4 * 64 + urlIndex c3) :: rawURLDecodeChars rest
  | [c0, c1, c2] =>
    [urlIndex c0 * 4 + urlIndex c1 / 16, urlIndex c1 % 16 * 16 + urlIndex c2 / 4]
  | [c0, c1] => [urlIndex c0 * 4 + urlIndex c1 / 16]
  | _ => []

/-! ## Case-insensitive matching -/

/-- Two facts about Go `unicode.ToLower`, read off the Unicode case tables: on
an ASCII character it is the ASCII lower-casing, and the only characters
outside ASCII whose lower case is an ASCII character are the Kelvin sign
(lower case `k`) and the capital I with dot above (lower case `i`). -/
def Lib.UnicodeLower (lib : Lib) : Prop :=
  (∀ c : Char, c.toNat < 128 → lib.toLowerRune c = c.toLower) ∧
  (∀ c : Char, 128 ≤ c.toNat → (lib.toLowerRune c).toNat < 128 →
    lib.toLowerRune c = 'k' ∨ lib.toLowerRune c = 'i')

/-- The word is `bearer` in some mix of upper and lower case. -/
def isBearerSpelling (w : String) : Bool :=
  w.toList.map Char.toLower == "bearer".toList

/-! ## Byte strings: UTF-8 decoding and `strings.ToLower` on bytes -/

/-- Go `utf8.RuneError`, the replacement character. -/
def RuneError : Char := Char.ofNat 0xFFFD

/-- A continuation byte, 0x80 to 0xBF. -/
def isCont (b : Nat) : Bool := 0x80 ≤ b && b ≤ 0xBF

/-- Go `utf8.DecodeRuneInString` on the non-empty byte string `b0 :: rest`: the
first rune and its width in bytes.  A byte that starts no well-formed
sequence (a stray continuation byte, an overlong form, a surrogate, a value
above U+10FFFF, a sequence cut short) gives `RuneError` with width 1. -/
def decodeRune (b0 : Nat) (rest : List Nat) : Char × Nat :=
  if b0 < 0x80 then (Char.ofNat b0, 1)
  else if 0xC2 ≤ b0 ∧ b0 ≤ 0xDF then
    match rest with
    | b1 :: _ =>
      if isCont b1 then (Char.ofNat (b0 % 32 * 64 + b1 % 64), 2) else (RuneError, 1)
    | [] => (RuneError, 1)
  else if 0xE0 ≤ b0 ∧ b0 ≤ 0xEF then
    match rest with
    | b1 :: b2 :: _ =>
      if (if b0 = 0xE0 then 0xA0 else 0x80) ≤ b1 ∧ b1 ≤ (if b0 = 0xED then 0x9F else 0xBF) ∧
          isCont b2 then
        (Char.ofNat (b0 % 16 * 4096 + b1 % 64 * 64 + b2 % 64), 3)
      else (RuneError, 1)
    | _ => (RuneError, 1)
  else if 0xF0 ≤ b0 ∧ b0 ≤ 0xF4 then
    match rest with
    | b1 :: b2 :: b3 :: _ =>
      if (if b0 = 0xF0 then 0x90 else 0x80) ≤ b1 ∧ b1 ≤ (if b0 = 0xF4 then 0x8F else 0xBF) ∧
          isCont b2 ∧ isCont b3 then
        (Char.ofNat (b0 % 8 * 262144 + b1 % 64 * 4096 + b2 % 64 * 64 + b3 % 64), 4)
      else (RuneError, 1)
    | _ => (RuneError, 1)
  else (RuneError, 1)

/-- The runes of a byte string as `for range` and `strings.Map` see them;
`skip` counts the bytes still belonging to the rune decoded last. -/
def runesFrom : List Nat → Nat → List Char
  | [], _ => []
  | _ :: rest, skip + 1 => runesFrom rest skip
  | b0 :: rest, 0 => (decodeRune b0 rest).1 :: runesFrom rest ((decodeRune b0 rest).2 - 1)

/-- The runes of a byte string. -/
def runes (s : List Nat) : List Char := runesFrom s 0

/-- The byte `c += 'a' - 'A'` of the ASCII branch of `strings.ToLower`. -/
def lowerByte (b : Nat) : Nat := if 65 ≤ b ∧ b ≤ 90 then b + 32 else b

/-- Go `strings.ToLower` on a byte string: a string of ASCII bytes is mapped
byte by byte; any other string goes through `strings.Map(unicode.ToLower, s)`,
which writes the UTF-8 form of the lower case of every rune, an ill-formed
byte counting as `RuneError`. -/
def ToLowerBytes (lib : Lib) (s : List Nat) : List Nat :=
  if s.all fun b => b < 0x80 then s.map lowerByte
  else (runes s).flatMap fun c => utf8Char (lib.toLowerRune c)

/-- Go `strings.HasPrefix` on byte strings. -/
def HasPrefix : List Nat → List Nat → Bool
  | _, [] => true
  | [], _ :: _ => false
  | a :: s, b :: p => a == b && HasPrefix s p

/-- Go slice expression `s[n:]`: `none` stands for the run-time panic when `n`
exceeds the length. -/
def sliceFrom (s : List Nat) (n : Nat) : Option (List Nat) :=
  if n ≤ s.length then some (s.drop n) else none

/-- The text of a byte string that is well-formed UTF-8: decoding and encoding
again gives the bytes back exactly when no byte was ill-formed. -/
def stringOfBytes (s : List Nat) : Option String :=
  if (runes s).flatMap utf8Char = s then some (String.mk (runes s)) else none

/-! ## A chain of rotations -/

/-- The surroundings of one refresh in which every store call succeeds: the
time of the expiry check, the time of issuance and the bytes drawn for the
replacement. -/
structure Rotation where
  now : Time
  issuedAt : Time
  bytes : List Nat
deriving DecidableEq, Repr

/-- The refresh token a rotation hands out. -/
def Rotation.token (s : Rotation) : String := rawURLEncode s.bytes

/-- The surroundings of `handleRefresh` for a rotation: no statement fails. -/
def Rotation.env (s : Rotation) : RefreshEnv :=
  { now := s.now, lookupFails := false, rolesFail := false, revokeFails := false,
    issue := { now := s.issuedAt, rand := some s.bytes, insertFails := false } }

/-- Refreshes in sequence, each presenting the refresh token the previous
step returned, starting with `tok`: the tokens returned and the store at the
end, or `none` when a step is not answered with a token pair. -/
def refreshChain (lib : Lib) (st : appState) : DB → String → List RefreshEnv →
    Option (List String × DB)
  | db, _, [] => some ([], db)
  | db, tok, env :: envs =>
    match handleRefresh lib st db env ⟨"POST", "", some ⟨tok⟩⟩ with
    | (⟨_, .tokens resp⟩, db') =>
      match refreshChain lib st db' resp.RefreshToken envs with
      | some (toks, dbN) => some (resp.RefreshToken :: toks, dbN)
      | none => none
    | _ => none

/-- No token is expired when it is presented: each rotation checks the token
issued at `issued` no later than `issued + ttl`, and so on down the chain. -/
def live (ttl : Duration) : Time → List Rotation → Bool
  | _, [] => true
  | issued, s :: rest => decide (s.now ≤ issued + ttl) && live ttl s.issuedAt rest

/-- The same principal as in `demoDB`, with the status `active` and no refresh
token yet. -/
def demoActiveDB : DB :=
  { users := [{ id := "u1", email := "a@b.c", password_hash := "bcrypt:pw",
                status := "active" }]
    user_roles := []
    refresh_tokens := [] }

/-- Two rotations at second 5, drawing 32 bytes of value 1 and of value 2. -/
def demoSteps : List Rotation :=
  [{ now := 5000000000, issuedAt := 5000000000, bytes := List.replicate 32 1 },
   { now := 5000000000, issuedAt := 5000000000, bytes := List.replicate 32 2 }]

/-- The user row of `demoActiveDB`. -/
def demoUser : User :=
  { id := "u1", email := "a@b.c", password_hash := "bcrypt:pw", status := "active" }

end AuthService

/-! ## The gateway -/

namespace Gateway

open AuthService

/-- Source: `Config` of the gateway. -/
structure Config where
  AppName : String
  Environment : String
  Port : String
  JWTAudience : String
  JWTIssuer : String
  JWTPublicKey : PublicKey
deriving DecidableEq, Repr

/-- What the gateway writes as a JSON body. -/
inductive Body where
  /-- The object with the single member `error`. -/
  | error (code : String)
  /-- The object `/v1/me` writes: `ok` and the claims of the token. -/
  | claims (ok : Bool) (claims : MapClaims)
deriving DecidableEq, Repr

/-- Status code and body of a response of the gateway. -/
structure Response where
  status : Nat
  body : Body
deriving DecidableEq, Repr

/-- Source: the key function `authMiddleware` passes to `jwt.Parse`. -/
def keyFunc (cfg : Config) (t : Token MapClaims) : Except String PublicKey :=
  if t.Alg != "RS256" then .error ("unexpected alg: " ++ t.Alg)
  else .ok cfg.JWTPublicKey

/-- Source: `authMiddleware` from the call of `jwt.Parse` on: `tokenStr` is the
text cut from the header, `next` the protected handler that receives the
claims. -/
def authMiddlewareVerify (lib : Lib) (cfg : Config) (now : Time) (tokenStr : String)
    (next : MapClaims → Response) : Response :=
  match parseWithClaims lib lib.parseUnverifiedMap MapClaims.view tokenStr (keyFunc cfg)
      (some ["RS256"]) cfg.JWTAudience cfg.JWTIssuer now with
  | none => { status := 401, body := .error "invalid_token" }
  | some tok => next tok.Claims

/-- Source: the handler of `/v1/me` behind the middleware. -/
def meHandler (claims : MapClaims) : Response :=
  { status := 200, body := .claims true claims }

/-- Source: `authMiddleware`, from the header value `authz` (the bytes of
`r.Header.Get("Authorization")`) to the response; `none` is a panic of the
slice expression `authz[7:]`.  A token that is not well-formed UTF-8 cannot be
parsed by the library (it is no base64url text) and is refused like any other
token that does not parse. -/
def authMiddleware (lib : Lib) (cfg : Config) (now : Time) (authz : List Nat)
    (next : MapClaims → Response) : Option Response :=
  if authz = [] || !HasPrefix (ToLowerBytes lib authz) (bytesOf "bearer ") then
    some { status := 401, body := .error "missing_bearer_token" }
  else
    match sliceFrom authz 7 with
    | none => none
    | some rest =>
      match stringOfBytes rest with
      | none => some { status := 401, body := .error "invalid_token" }
      | some tokenStr => some (authMiddlewareVerify lib cfg now (TrimSpace tokenStr) next)

end Gateway



/-! ## The payments service -/

namespace Payments

open AuthService

/-- Source: `appState` of the payments service; the database handle is an
identifier, `none` for a nil pointer. -/
structure appState where
  dbReady : Bool
  db : Option Nat
deriving DecidableEq, Repr

/-- Source: the handler `main` registers for `/readyz` (and `newTestMux` in the
tests); `_method` is the method of the request, which the handler does not
read. -/
def readyz (st : appState) (_method : String) : Response :=
  if !st.dbReady then httpError "db not ready" 503
  else writeText 200 "ready"

end Payments

/-! # Theorems -/

namespace AuthService

/-! ## What the writing statements keep -/

theorem issueTokens_keeps {ok : String → Prop} {P : DB → Prop} (hP : StoreInvariant ok P)
    (lib : Lib) (st : appState) (db : DB) (env : IssueEnv) (userID : String)
    (roles : List String)
    (hdraw : ∀ b, env.rand = some b → ok (hashToken lib (rawURLEncode b))) (h : P db) :
    P (issueTokens lib st db env userID roles).2 := by
  unfold issueTokens
  dsimp only
  cases lib.signedString (accessClaims st env.now userID roles) st.privateKey with
  | none => exact h
  | some accessSigned =>
    dsimp only
    cases hr : env.rand with
    | none => exact h
    | some b =>
      simp only [newRefreshToken]
      cases hins : db.insertRefreshToken userID (hashToken lib (rawURLEncode b))
          (Time.Add env.now st.refreshTTL) env.insertFails with
      | error e => exact h
      | ok db' => exact hP.insert _ _ _ _ _ _ h (hdraw b hr) hins

theorem revokeRefreshToken_keeps {ok : String → Prop} {P : DB → Prop}
    (hP : StoreInvariant ok P) (lib : Lib) (db : DB) (fails : Bool) (raw : String)
    (h : P db) : P (revokeRefreshToken lib db fails raw).2 := by
  unfold revokeRefreshToken
  dsimp only
  cases hup : db.updateRevoked (hashToken lib raw) fails with
  | error e => exact h
  | ok db' => exact hP.update _ _ _ _ h hup

theorem handleLogout_keeps {ok : String → Prop} {P : DB → Prop} (hP : StoreInvariant ok P)
    (lib : Lib) (db : DB) (fails : Bool) (r : Request logoutRequest) (h : P db) :
    P (handleLogout lib db fails r).2 := by
  unfold handleLogout
  split
  · exact h
  · cases r.Json with
    | none => exact h
    | some req =>
      dsimp only
      split
      · exact h
      · exact revokeRefreshToken_keeps hP lib db fails _ h

theorem handleLogin_keeps {ok : String → Prop} {P : DB → Prop} (hP : StoreInvariant ok P)
    (lib : Lib) (st : appState) (db : DB) (env : LoginEnv) (r : Request loginRequest)
    (hdraw : ∀ b, env.issue.rand = some b → ok (hashToken lib (rawURLEncode b)))
    (h : P db) : P (handleLogin lib st db env r).2 := by
  unfold handleLogin
  split
  · exact h
  · cases r.Json with
    | none => exact h
    | some req =>
      dsimp only
      split
      · exact h
      · cases db.selectUserByEmail (ToLower lib (TrimSpace req.Email)) env.lookupFails with
        | error e => exact h
        | ok u =>
          dsimp only
          split
          · exact h
          · split
            · exact h
            · cases getUserRoles db u.id env.rolesFail with
              | error e => exact h
              | ok roles =>
                dsimp only
                have hk := issueTokens_keeps hP lib st db env.issue u.id roles hdraw h
                rcases hi : issueTokens lib st db env.issue u.id roles with ⟨res, db'⟩
                rw [hi] at hk
                cases res <;> exact hk

theorem handleRefresh_keeps {ok : String → Prop} {P : DB → Prop} (hP : StoreInvariant ok P)
    (lib : Lib) (st : appState) (db : DB) (env : RefreshEnv) (r : Request refreshRequest)
    (hdraw : ∀ b, env.issue.rand = some b → ok (hashToken lib (rawURLEncode b)))
    (h : P db) : P (handleRefresh lib st db env r).2 := by
  unfold handleRefresh
  split
  · exact h
  · cases r.Json with
    | none => exact h
    | some req =>
      dsimp only
      split
      · exact h
      · rcases validateRefreshToken lib db env.now env.lookupFails (TrimSpace req.RefreshToken)
          with ⟨userID, ok⟩
        cases ok with
        | false => exact h
        | true =>
          dsimp only
          cases getUserRoles db userID env.rolesFail with
          | error e => exact h
          | ok roles =>
            dsimp only
            have hk1 := revokeRefreshToken_keeps hP lib db env.revokeFails
              (TrimSpace req.RefreshToken) h
            rcases hr : revokeRefreshToken lib db env.revokeFails (TrimSpace req.RefreshToken)
              with ⟨err, db1⟩
            rw [hr] at hk1
            cases err with
            | some e => exact hk1
            | none =>
              dsimp only
              have hk2 := issueTokens_keeps hP lib st db1 env.issue userID roles hdraw hk1
              rcases hi : issueTokens lib st db1 env.issue userID roles with ⟨res, db2⟩
              rw [hi] at hk2
              cases res <;> exact hk2

theorem apply_keeps {ok : String → Prop} {P : DB → Prop} (hP : StoreInvariant ok P)
    (lib : Lib) (st : appState) (db : DB) (op : Op)
    (hdraw : ∀ b, op.rand = some b → ok (hashToken lib (rawURLEncode b))) (h : P db) :
    P (op.apply lib st db) := by
  cases op with
  | issue env userID roles => exact issueTokens_keeps hP lib st db env userID roles hdraw h
  | revoke fails raw => exact revokeRefreshToken_keeps hP lib db fails raw h
  | login env r => exact handleLogin_keeps hP lib st db env r hdraw h
  | refresh env r => exact handleRefresh_keeps hP lib st db env r hdraw h
  | logout fails r => exact handleLogout_keeps hP lib db fails r h

theorem runOps_keeps {ok : String → Prop} {P : DB → Prop} (hP : StoreInvariant ok P)
    (lib : Lib) (st : appState) (ops : List Op) (db : DB)
    (hdraw : ∀ op ∈ ops, ∀ b, op.rand = some b → ok (hashToken lib (rawURLEncode b)))
    (h : P db) : P (runOps lib st db ops) := by
  induction ops generalizing db with
  | nil => exact h
  | cons op ops ih =>
    exact ih _ (fun o ho => hdraw o (List.mem_cons_of_mem _ ho))
      (apply_keeps hP lib st db op (hdraw op (List.mem_cons_self _ _)) h)

/-! ## A used-up hash stays used up -/

theorem updateRevoked_ok (db : DB) (h : String) (fails : Bool) (db' : DB)
    (hup : db.updateRevoked h fails = .ok db') :
    db' = { db with refresh_tokens := db.refresh_tokens.map fun r =>
      if r.token_hash == h then { r with revoked := true } else r } := by
  unfold DB.updateRevoked at hup
  split at hup
  · cases hup
  · cases hup
    rfl

theorem insertRefreshToken_ok (db : DB) (u h : String) (e : Time) (fails : Bool) (db' : DB)
    (hins : db.insertRefreshToken u h e fails = .ok db') :
    (∀ r ∈ db.refresh_tokens, r.token_hash ≠ h) ∧
    db' = { db with refresh_tokens := db.refresh_tokens ++
      [{ user_id := u, token_hash := h, expires_at := e, revoked := false }] } := by
  unfold DB.insertRefreshToken at hins
  split at hins
  · cases hins
  · split at hins
    · cases hins
    · rename_i hany
      cases hins
      refine ⟨?_, rfl⟩
      intro r hr hh
      apply hany
      rw [List.any_eq_true]
      exact ⟨r, hr, by simp [hh]⟩

theorem spent_invariant (h : String) : StoreInvariant (fun _ => True) (Spent h) where
  update := by
    intro db h' fails db' hs hup
    rw [updateRevoked_ok db h' fails db' hup]
    obtain ⟨⟨r0, hr0, hh0⟩, hall⟩ := hs
    constructor
    · by_cases hc : r0.token_hash = h'
      · exact ⟨{ r0 with revoked := true }, by
          simp only [List.mem_map]
          exact ⟨r0, hr0, by simp [hc]⟩, hh0⟩
      · exact ⟨r0, by
          simp only [List.mem_map]
          exact ⟨r0, hr0, by simp [hc]⟩, hh0⟩
    · intro r hr hh
      simp only [List.mem_map] at hr
      obtain ⟨r1, hr1, rfl⟩ := hr
      by_cases hc : r1.token_hash = h'
      · simp [hc]
      · simp only [beq_iff_eq, hc, if_false] at hh ⊢
        exact hall r1 hr1 hh
  insert := by
    intro db u h' e fails db' hs _ hins
    obtain ⟨hfresh, rfl⟩ := insertRefreshToken_ok db u h' e fails db' hins
    obtain ⟨⟨r0, hr0, hh0⟩, hall⟩ := hs
    constructor
    · exact ⟨r0, List.mem_append_left _ hr0, hh0⟩
    · intro r hr hh
      rcases List.mem_append.mp hr with hr | hr
      · exact hall r hr hh
      · simp only [List.mem_singleton] at hr
        subst hr
        exact absurd (hh0.trans hh.symm) (hfresh r0 hr0)

theorem validate_spent (lib : Lib) (db : DB) (now : Time) (fails : Bool) (raw : String)
    (hs : Spent (hashToken lib raw) db) :
    validateRefreshToken lib db now fails raw = ("", false) := by
  unfold validateRefreshToken
  dsimp only
  cases hsel : db.selectRefreshToken (hashToken lib raw) fails with
  | error e => rfl
  | ok row =>
    dsimp only
    unfold DB.selectRefreshToken at hsel
    split at hsel
    · cases hsel
    · split at hsel
      · cases hsel
      · rename_i r hfind
        cases hsel
        have hmem := List.mem_of_find?_eq_some hfind
        have hhash := List.find?_some hfind
        have hrev := hs.2 row hmem (by simpa using hhash)
        simp [hrev]

theorem revoke_spent (lib : Lib) (db : DB) (fails : Bool) (raw : String)
    (hrec : ∃ r ∈ db.refresh_tokens, r.token_hash = hashToken lib raw)
    (hok : (revokeRefreshToken lib db fails raw).1 = none) :
    Spent (hashToken lib raw) (revokeRefreshToken lib db fails raw).2 := by
  unfold revokeRefreshToken at hok ⊢
  dsimp only at hok ⊢
  cases hup : db.updateRevoked (hashToken lib raw) fails with
  | error e => rw [hup] at hok; cases hok
  | ok db' =>
    dsimp only
    rw [updateRevoked_ok db _ fails db' hup]
    obtain ⟨r0, hr0, hh0⟩ := hrec
    constructor
    · exact ⟨{ r0 with revoked := true }, by
        simp only [List.mem_map]
        exact ⟨r0, hr0, by simp [hh0]⟩, hh0⟩
    · intro r hr hh
      simp only [List.mem_map] at hr
      obtain ⟨r1, hr1, rfl⟩ := hr
      by_cases hc : r1.token_hash = hashToken lib raw
      · simp [hc]
      · simp only [beq_iff_eq, hc, if_false] at hh


theorem getUserRoles_ok (db : DB) (userID : String) :
    ∃ roles, getUserRoles db userID false = .ok roles ∧ roles ≠ [] := by
  unfold getUserRoles DB.selectRoleNames
  simp only [Bool.false_eq_true, if_false]
  split
  · exact ⟨_, rfl, by simp⟩
  · rename_i hne
    refine ⟨_, rfl, ?_⟩
    intro h
    apply hne
    rw [h]; rfl

theorem validate_active (lib : Lib) (db : DB) (now : Time) (raw : String)
    (rec : RefreshTokenRecord)
    (hfind : db.refresh_tokens.find? (fun r => r.token_hash == hashToken lib raw) = some rec)
    (hrev : rec.revoked = false) (hexp : now ≤ rec.expires_at) :
    validateRefreshToken lib db now false raw = (rec.user_id, true) := by
  unfold validateRefreshToken DB.selectRefreshToken
  simp only [Bool.false_eq_true, if_false, hfind, hrev, Time.After, Bool.false_or]
  have : ¬ rec.expires_at < now := not_lt.mpr hexp
  simp [this]

theorem handleRefresh_spent (lib : Lib) (st : appState) (db : DB) (env : RefreshEnv)
    (auth raw : String) (hne : TrimSpace raw ≠ "")
    (hs : Spent (hashToken lib (TrimSpace raw)) db) :
    handleRefresh lib st db env ⟨"POST", auth, some ⟨raw⟩⟩ =
      (httpError "invalid refresh token" 401, db) := by
  unfold handleRefresh
  simp only [validate_spent lib db env.now env.lookupFails _ hs]
  simp [hne]


theorem handleRefresh_ok (lib : Lib) (st : appState) (db : DB) (now nowIssue : Time)
    (bytes : List Nat) (auth raw : String) (rec : RefreshTokenRecord) (roles : List String)
    (access : String) (hne : TrimSpace raw ≠ "")
    (hfind : db.refresh_tokens.find?
      (fun r => r.token_hash == hashToken lib (TrimSpace raw)) = some rec)
    (hrev : rec.revoked = false) (hexp : now ≤ rec.expires_at)
    (hroles : getUserRoles db rec.user_id false = .ok roles)
    (hsign : lib.signedString (accessClaims st nowIssue rec.user_id roles) st.privateKey
      = some access)
    (hfresh : ∀ r ∈ db.refresh_tokens, r.token_hash ≠ hashToken lib (rawURLEncode bytes)) :
    handleRefresh lib st db
        { now := now, lookupFails := false, rolesFail := false, revokeFails := false,
          issue := { now := nowIssue, rand := some bytes, insertFails := false } }
        ⟨"POST", auth, some ⟨raw⟩⟩ =
      (writeJSON 200 (.tokens
          { AccessToken := access, RefreshToken := rawURLEncode bytes, TokenType := "Bearer",
            ExpiresIn := Duration.SecondsInt64 st.accessTTL }),
        { db with refresh_tokens :=
            (db.refresh_tokens.map fun r =>
              if r.token_hash == hashToken lib (TrimSpace raw) then { r with revoked := true }
              else r) ++
            [{ user_id := rec.user_id, token_hash := hashToken lib (rawURLEncode bytes),
               expires_at := Time.Add nowIssue st.refreshTTL, revoked := false }] }) := by
  have hany : ¬ ∃ x ∈ db.refresh_tokens,
      (if x.token_hash = hashToken lib (TrimSpace raw) then
          ({ x with revoked := true } : RefreshTokenRecord)
        else x).token_hash = hashToken lib (rawURLEncode bytes) := by
    rintro ⟨x, hx, hh⟩
    apply hfresh x hx
    split at hh <;> exact hh
  unfold handleRefresh
  simp only [validate_active lib db now _ rec hfind hrev hexp, hroles]
  unfold revokeRefreshToken DB.updateRevoked issueTokens newRefreshToken DB.insertRefreshToken
  simp [hne, hsign, hany]


/-! ## A hash that is not in the table -/

theorem absent_invariant (h : String) : StoreInvariant (fun h' => h' ≠ h) (Absent h) where
  update := by
    intro db h' fails db' ha hup
    rw [updateRevoked_ok db h' fails db' hup]
    intro r hr
    simp only [List.mem_map] at hr
    obtain ⟨r1, hr1, rfl⟩ := hr
    have := ha r1 hr1
    split <;> exact this
  insert := by
    intro db u h' e fails db' ha hne hins
    obtain ⟨_, rfl⟩ := insertRefreshToken_ok db u h' e fails db' hins
    intro r hr
    rcases List.mem_append.mp hr with hr | hr
    · exact ha r hr
    · simp only [List.mem_singleton] at hr
      subst hr
      exact hne

theorem validate_absent (lib : Lib) (db : DB) (now : Time) (fails : Bool) (raw : String)
    (ha : Absent (hashToken lib raw) db) :
    validateRefreshToken lib db now fails raw = ("", false) := by
  have hnone : db.refresh_tokens.find? (fun r => r.token_hash == hashToken lib raw) = none := by
    rw [List.find?_eq_none]
    intro r hr
    simpa using ha r hr
  unfold validateRefreshToken DB.selectRefreshToken
  cases fails <;> simp [hnone]

/-! ## Replay of a redeemed refresh token (C1) -/

/-- C1: a refresh request presenting a token whose record is present, not
revoked and not expired, with every store call succeeding (the role query
returns `roles`, signing returns `access`, and the INSERT meets no row with the
hash of the replacement value `rawURLEncode bytes`), is answered with 200 and
the new token pair; after it, and after any further sequence of operations on
the store, every refresh request presenting the same value is answered with
`invalid refresh token` (401), whatever its surroundings and the time. -/
theorem refresh_replay_rejected (lib : Lib) (st : appState) (db : DB) (now nowIssue : Time)
    (bytes : List Nat) (auth raw : String) (rec : RefreshTokenRecord) (roles : List String)
    (access : String) (hne : TrimSpace raw ≠ "")
    (hfind : db.refresh_tokens.find?
      (fun r => r.token_hash == hashToken lib (TrimSpace raw)) = some rec)
    (hrev : rec.revoked = false) (hexp : now ≤ rec.expires_at)
    (hroles : getUserRoles db rec.user_id false = .ok roles)
    (hsign : lib.signedString (accessClaims st nowIssue rec.user_id roles) st.privateKey
      = some access)
    (hfresh : ∀ r ∈ db.refresh_tokens, r.token_hash ≠ hashToken lib (rawURLEncode bytes)) :
    (handleRefresh lib st db
        { now := now, lookupFails := false, rolesFail := false, revokeFails := false,
          issue := { now := nowIssue, rand := some bytes, insertFails := false } }
        ⟨"POST", auth, some ⟨raw⟩⟩).1 =
      writeJSON 200 (.tokens
          { AccessToken := access, RefreshToken := rawURLEncode bytes, TokenType := "Bearer",
            ExpiresIn := Duration.SecondsInt64 st.accessTTL }) ∧
    ∀ (ops : List Op) (env' : RefreshEnv) (auth' : String),
      (handleRefresh lib st
        (runOps lib st
          (handleRefresh lib st db
            { now := now, lookupFails := false, rolesFail := false, revokeFails := false,
              issue := { now := nowIssue, rand := some bytes, insertFails := false } }
            ⟨"POST", auth, some ⟨raw⟩⟩).2 ops)
        env' ⟨"POST", auth', some ⟨raw⟩⟩).1 = httpError "invalid refresh token" 401 := by
  have hmem : ∃ r ∈ db.refresh_tokens, r.token_hash = hashToken lib (TrimSpace raw) :=
    ⟨rec, List.mem_of_find?_eq_some hfind, by simpa using List.find?_some hfind⟩
  have hrk : revokeRefreshToken lib db false (TrimSpace raw) =
      (none, { db with refresh_tokens := db.refresh_tokens.map fun r =>
        if r.token_hash == hashToken lib (TrimSpace raw) then { r with revoked := true }
        else r }) := by
    unfold revokeRefreshToken DB.updateRevoked
    simp
  have hs1 := revoke_spent lib db false (TrimSpace raw) hmem (by rw [hrk])
  rw [hrk] at hs1
  have hs2 := (spent_invariant (hashToken lib (TrimSpace raw))).insert _ rec.user_id
    (hashToken lib (rawURLEncode bytes)) (Time.Add nowIssue st.refreshTTL) false
    { db with refresh_tokens :=
        (db.refresh_tokens.map fun r =>
          if r.token_hash == hashToken lib (TrimSpace raw) then { r with revoked := true }
          else r) ++
        [{ user_id := rec.user_id, token_hash := hashToken lib (rawURLEncode bytes),
           expires_at := Time.Add nowIssue st.refreshTTL, revoked := false }] } hs1 trivial (by
      unfold DB.insertRefreshToken
      have hany : ¬ ∃ x ∈ db.refresh_tokens,
          (if x.token_hash = hashToken lib (TrimSpace raw) then
              ({ x with revoked := true } : RefreshTokenRecord)
            else x).token_hash = hashToken lib (rawURLEncode bytes) := by
        rintro ⟨x, hx, hh⟩
        apply hfresh x hx
        split at hh <;> exact hh
      simp [hany])
  rw [handleRefresh_ok lib st db now nowIssue bytes auth raw rec roles access hne hfind hrev
    hexp hroles hsign hfresh]
  refine ⟨rfl, ?_⟩
  intro ops env' auth'
  rw [handleRefresh_spent lib st _ env' auth' raw hne
    (runOps_keeps (spent_invariant _) lib st ops _ (fun _ _ _ _ => trivial) hs2)]

/-- C1, at a concrete input: `tokA` is redeemed at second 4 and the replacement
is drawn from 32 bytes of value 7. -/
theorem refresh_replay_rejected_witness :
    TrimSpace "tokA" ≠ "" ∧
    demoDB.refresh_tokens.find?
      (fun r => r.token_hash == hashToken demo (TrimSpace "tokA")) = some demoRecord ∧
    demoRecord.revoked = false ∧ (4000000000 : Time) ≤ demoRecord.expires_at ∧
    getUserRoles demoDB demoRecord.user_id false = .ok ["user"] ∧
    demo.signedString (accessClaims demoState 5000000000 demoRecord.user_id ["user"])
      demoState.privateKey = some "signed" ∧
    (∀ r ∈ demoDB.refresh_tokens,
      r.token_hash ≠ hashToken demo (rawURLEncode (List.replicate 32 7))) ∧
    (handleRefresh demo demoState demoDB (demoEnv 4000000000 7) demoRefresh).1 =
      writeJSON 200 (.tokens
          { AccessToken := "signed", RefreshToken := rawURLEncode (List.replicate 32 7),
            TokenType := "Bearer", ExpiresIn := 900 }) ∧
    (handleRefresh demo demoState
        (handleRefresh demo demoState demoDB (demoEnv 4000000000 7) demoRefresh).2
        (demoEnv 4000000001 8) demoRefresh).1 = httpError "invalid refresh token" 401 :=
  have h := refresh_replay_rejected demo demoState demoDB 4000000000 5000000000
    (List.replicate 32 7) "" "tokA" demoRecord ["user"] "signed" (by decide) (by decide)
    (by decide) (by decide) rfl (by decide) (by decide)
  ⟨by decide, by decide, by decide, by decide, rfl, by decide, by decide, h.1,
    h.2 [] (demoEnv 4000000001 8) ""⟩

/-! ## A revoked token is never accepted again (C5) -/

/-- C5: once `revokeRefreshToken` has succeeded on a token, `validateRefreshToken`
of the same token fails at every time (also before the record's expires-at),
with or without a failure of its query, and after any further sequence of
issue, revoke, login, refresh and logout operations.  This holds for every
token that has a record when it is revoked; for a value that was never issued,
and so has no record to revoke, it holds as long as no later issuance draws
that very value. -/
theorem revoked_token_never_validates (lib : Lib) (st : appState) (db : DB) (fails : Bool)
    (raw : String) (ops : List Op)
    (hok : (revokeRefreshToken lib db fails raw).1 = none)
    (hrec : (∃ r ∈ db.refresh_tokens, r.token_hash = hashToken lib raw) ∨
      DrawsAvoid lib (hashToken lib raw) ops)
    (now : Time) (fails' : Bool) :
    validateRefreshToken lib (runOps lib st (revokeRefreshToken lib db fails raw).2 ops)
      now fails' raw = ("", false) := by
  by_cases hex : ∃ r ∈ db.refresh_tokens, r.token_hash = hashToken lib raw
  · exact validate_spent lib _ now fails' raw
      (runOps_keeps (spent_invariant _) lib st ops _ (fun _ _ _ _ => trivial)
        (revoke_spent lib db fails raw hex hok))
  · have havoid : DrawsAvoid lib (hashToken lib raw) ops := hrec.resolve_left hex
    have habs : Absent (hashToken lib raw) db := fun r hr hh => hex ⟨r, hr, hh⟩
    exact validate_absent lib _ now fails' raw
      (runOps_keeps (absent_invariant _) lib st ops _ havoid
        (revokeRefreshToken_keeps (absent_invariant _) lib db fails raw habs))

/-- C5, at a concrete input: `tokA` is revoked, then a token is issued and a
refresh of `tokA` is tried; at second 1, long before the expiry at second 9,
`tokA` is rejected. -/
theorem revoked_token_never_validates_witness :
    (revokeRefreshToken demo demoDB false "tokA").1 = none ∧
    (∃ r ∈ demoDB.refresh_tokens, r.token_hash = hashToken demo "tokA") ∧
    validateRefreshToken demo
      (runOps demo demoState (revokeRefreshToken demo demoDB false "tokA").2
        [.issue (demoEnv 0 7).issue "u1" ["user"], .refresh (demoEnv 1000000000 8) demoRefresh])
      1000000000 false "tokA" = ("", false) :=
  ⟨by decide, by decide,
    revoked_token_never_validates demo demoState demoDB false "tokA"
      [.issue (demoEnv 0 7).issue "u1" ["user"], .refresh (demoEnv 1000000000 8) demoRefresh]
      (by decide) (Or.inl (by decide)) 1000000000 false⟩

/-! ## Two concurrent redemptions (C2) -/

theorem refreshStep_sequential (lib : Lib) (st : appState) (env : RefreshEnv) (auth raw : String)
    (db : DB) (b : RefreshPoint) (hne : TrimSpace raw ≠ "") :
    runRace lib st env env (TrimSpace raw) [true, true, true, true]
        { a := .atValidate, b := b, db := db } =
      { a := .finished (handleRefresh lib st db env ⟨"POST", auth, some ⟨raw⟩⟩).1, b := b,
        db := (handleRefresh lib st db env ⟨"POST", auth, some ⟨raw⟩⟩).2 } := by
  unfold handleRefresh
  simp only [runRace, refreshStep]
  rcases hv : validateRefreshToken lib db env.now env.lookupFails (TrimSpace raw)
    with ⟨userID, ok⟩
  cases ok with
  | false => simp [hne, refreshStep]
  | true =>
    simp only [refreshStep]
    cases hr : getUserRoles db userID env.rolesFail with
    | error e => simp [hne, refreshStep]
    | ok roles =>
      simp only [refreshStep]
      rcases hk : revokeRefreshToken lib db env.revokeFails (TrimSpace raw) with ⟨err, db1⟩
      cases err with
      | some e => simp [hne, refreshStep]
      | none =>
        simp only [refreshStep]
        rcases hi : issueTokens lib st db1 env.issue userID roles with ⟨res, db2⟩
        cases res <;> simp [hne]

/-- C2, evaluated on the code: two workers present the still-active token
`tokA`; each performs its SELECT, then each its role query, its UPDATE and its
INSERT.  Both are answered with 200 and a token pair of their own, and the
table ends with two unrevoked replacement records.  Run one after the other,
the second worker is answered with 401. -/
theorem concurrent_refresh_both_succeed :
    runRace demo demoState (demoEnv 4000000000 7) (demoEnv 4000000000 9) "tokA"
        [true, false, true, false, true, false, true, false]
        { a := .atValidate, b := .atValidate, db := demoDB } =
      { a := .finished (writeJSON 200 (.tokens
            { AccessToken := "signed", RefreshToken := rawURLEncode (List.replicate 32 7),
              TokenType := "Bearer", ExpiresIn := 900 }))
        b := .finished (writeJSON 200 (.tokens
            { AccessToken := "signed", RefreshToken := rawURLEncode (List.replicate 32 9),
              TokenType := "Bearer", ExpiresIn := 900 }))
        db := { demoDB with refresh_tokens :=
            [{ demoRecord with revoked := true },
             { user_id := "u1", token_hash := hashToken demo (rawURLEncode (List.replicate 32 7)),
               expires_at := 604805000000000, revoked := false },
             { user_id := "u1", token_hash := hashToken demo (rawURLEncode (List.replicate 32 9)),
               expires_at := 604805000000000, revoked := false }] } } ∧
    (runRace demo demoState (demoEnv 4000000000 7) (demoEnv 4000000000 9) "tokA"
        [true, true, true, true, false, false, false, false]
        { a := .atValidate, b := .atValidate, db := demoDB }).b =
      .finished (httpError "invalid refresh token" 401) := by
  constructor <;> decide

/-! ## A principal that is not active (C3) -/

/-- C3, evaluated on the code: the principal `u1` has the status `suspended`.
A login with the right password is refused with 403, but a refresh request
presenting the refresh token `u1` still owns is answered with 200 and a new
token pair, and a new refresh record is stored for `u1`. -/
theorem refresh_ignores_status :
    (∀ u ∈ demoDB.users, u.status ≠ "active") ∧
    (handleLogin demo demoState demoDB
        { lookupFails := false, rolesFail := false, issue := (demoEnv 0 7).issue }
        ⟨"POST", "", some ⟨"a@b.c", "pw"⟩⟩).1 = httpError "user not active" 403 ∧
    handleRefresh demo demoState demoDB (demoEnv 4000000000 7) demoRefresh =
      (writeJSON 200 (.tokens
          { AccessToken := "signed", RefreshToken := rawURLEncode (List.replicate 32 7),
            TokenType := "Bearer", ExpiresIn := 900 }),
        { demoDB with refresh_tokens :=
            [{ demoRecord with revoked := true },
             { user_id := "u1", token_hash := hashToken demo (rawURLEncode (List.replicate 32 7)),
               expires_at := 604805000000000, revoked := false }] }) := by
  refine ⟨by decide, by decide, by decide⟩

/-! ## The expiry instant (C4) -/

/-- C4 as stated fails: at the instant `now = expires_at` the unrevoked record
of `tokA` is accepted and the refresh request is answered with 200. -/
theorem expiry_instant_accepted :
    demoDB.refresh_tokens.find? (fun r => r.token_hash == hashToken demo "tokA")
      = some demoRecord ∧
    demoRecord.expires_at ≤ (9000000000 : Time) ∧
    validateRefreshToken demo demoDB 9000000000 false "tokA" = ("u1", true) ∧
    (handleRefresh demo demoState demoDB (demoEnv 9000000000 7) demoRefresh).1.status = 200 := by
  refine ⟨by decide, by decide, by decide, by decide⟩

/-- C4, amended: for every record found under the hash of the presented token
and every time `now` strictly after its `expires_at`, `validateRefreshToken`
rejects the token and the refresh request gets `invalid refresh token` (401)
with the store unchanged; at `now = expires_at` an unrevoked record is still
accepted. -/
theorem expired_token_rejected (lib : Lib) (st : appState) (db : DB) (env : RefreshEnv)
    (auth raw : String) (rec : RefreshTokenRecord) (hne : TrimSpace raw ≠ "")
    (hfind : db.refresh_tokens.find?
      (fun r => r.token_hash == hashToken lib (TrimSpace raw)) = some rec) :
    (rec.expires_at < env.now →
      validateRefreshToken lib db env.now env.lookupFails (TrimSpace raw) = ("", false) ∧
      handleRefresh lib st db env ⟨"POST", auth, some ⟨raw⟩⟩ =
        (httpError "invalid refresh token" 401, db)) ∧
    (env.now = rec.expires_at → rec.revoked = false →
      validateRefreshToken lib db env.now false (TrimSpace raw) = (rec.user_id, true)) := by
  constructor
  · intro hlt
    have hv : validateRefreshToken lib db env.now env.lookupFails (TrimSpace raw)
        = ("", false) := by
      unfold validateRefreshToken DB.selectRefreshToken
      cases env.lookupFails <;> simp [hfind, Time.After, hlt]
    refine ⟨hv, ?_⟩
    unfold handleRefresh
    simp only [hv]
    simp [hne]
  · intro heq hrev
    exact validate_active lib db env.now _ rec hfind hrev (le_of_eq heq)

/-- C4, amended, at a concrete input: one nanosecond after the expiry of
`tokA` the token is rejected, at the expiry instant it is accepted. -/
theorem expired_token_rejected_witness :
    TrimSpace "tokA" ≠ "" ∧
    demoDB.refresh_tokens.find?
      (fun r => r.token_hash == hashToken demo (TrimSpace "tokA")) = some demoRecord ∧
    demoRecord.expires_at < (demoEnv 9000000001 7).now ∧
    handleRefresh demo demoState demoDB (demoEnv 9000000001 7) demoRefresh =
      (httpError "invalid refresh token" 401, demoDB) :=
  ⟨by decide, by decide, by decide,
    ((expired_token_rejected demo demoState demoDB (demoEnv 9000000001 7) "" "tokA" demoRecord
      (by decide) (by decide)).1 (by decide)).2⟩

/-! ## The access TTL (C9) -/

/-- C9, evaluated on the code: with ACCESS_TOKEN_TTL_SECONDS set to
9223372037 the text parses to a positive `int64`, the product with
`time.Second` wraps, the TTL is negative, and the claims built at second 5
expire before they are issued.  With 36028797018963968 the TTL is zero. -/
theorem access_ttl_overflow :
    ParseInt (TrimSpace "9223372037") = some 9223372037 ∧
    mustDurationSeconds "9223372037" = -9223372036709551616 ∧
    (newAppState (fun k => if k = "ACCESS_TOKEN_TTL_SECONDS" then "9223372037" else "")
      demoKey demoKey.PublicKey).accessTTL < 0 ∧
    (accessClaims
      (newAppState (fun k => if k = "ACCESS_TOKEN_TTL_SECONDS" then "9223372037" else "")
        demoKey demoKey.PublicKey) 5000000000 "u1" ["user"]).ExpiresAt
      = some (-9223372032000000000) ∧
    (accessClaims
      (newAppState (fun k => if k = "ACCESS_TOKEN_TTL_SECONDS" then "9223372037" else "")
        demoKey demoKey.PublicKey) 5000000000 "u1" ["user"]).IssuedAt
      = some 5000000000 ∧
    mustDurationSeconds "36028797018963968" = 0 := by
  refine ⟨by decide, by decide, by decide, by decide, by decide, by decide⟩

/-! ## A failing lookup (C10) -/

/-- C10, evaluated on the code: the SELECT of `validateRefreshToken` fails
while the still-active token `tokA` is presented.  The response is
`invalid refresh token` (401), the very response given for a token that has no
record, whereas a failure of the role query in the same handler is answered
with 500. -/
theorem lookup_failure_not_distinct :
    (handleRefresh demo demoState demoDB { demoEnv 4000000000 7 with lookupFails := true }
        demoRefresh).1 =
      (handleRefresh demo demoState demoDB (demoEnv 4000000000 7)
        ⟨"POST", "", some ⟨"not-a-real-token"⟩⟩).1 ∧
    (handleRefresh demo demoState demoDB { demoEnv 4000000000 7 with lookupFails := true }
        demoRefresh).1 = httpError "invalid refresh token" 401 ∧
    (handleRefresh demo demoState demoDB { demoEnv 4000000000 7 with rolesFail := true }
        demoRefresh).1 = httpError "failed to load roles" 500 := by
  refine ⟨by decide, by decide, by decide⟩

/-- What the code does where C10 asks for a distinct outcome: for every refresh
request (POST, with a token that is not empty after trimming) whose lookup in
`validateRefreshToken` fails with a persistence or timeout error, the outcome
is `invalid refresh token` (401) with the store unchanged, the same outcome as
for a token without a record, with a revoked record or with an expired
record. -/
theorem lookup_failure_reported_as_invalid (lib : Lib) (st : appState) (db : DB)
    (env : RefreshEnv) (auth raw : String) (hne : TrimSpace raw ≠ "") :
    handleRefresh lib st db { env with lookupFails := true } ⟨"POST", auth, some ⟨raw⟩⟩ =
      (httpError "invalid refresh token" 401, db) ∧
    (db.refresh_tokens.find? (fun r => r.token_hash == hashToken lib (TrimSpace raw)) = none →
      handleRefresh lib st db env ⟨"POST", auth, some ⟨raw⟩⟩ =
        (httpError "invalid refresh token" 401, db)) ∧
    (∀ rec, db.refresh_tokens.find?
        (fun r => r.token_hash == hashToken lib (TrimSpace raw)) = some rec →
      rec.revoked = true ∨ rec.expires_at < env.now →
      handleRefresh lib st db env ⟨"POST", auth, some ⟨raw⟩⟩ =
        (httpError "invalid refresh token" 401, db)) := by
  refine ⟨?_, ?_, ?_⟩
  · unfold handleRefresh validateRefreshToken DB.selectRefreshToken
    simp [hne]
  · intro hnone
    unfold handleRefresh validateRefreshToken DB.selectRefreshToken
    cases env.lookupFails <;> simp [hne, hnone]
  · intro rec hfind hbad
    unfold handleRefresh validateRefreshToken DB.selectRefreshToken
    rcases hbad with hrev | hlt
    · cases env.lookupFails <;> simp [hne, hfind, hrev]
    · cases env.lookupFails <;> simp [hne, hfind, hlt, Time.After]

/-- The outcome of a failing lookup, at a concrete input. -/
theorem lookup_failure_reported_as_invalid_witness :
    TrimSpace "tokA" ≠ "" ∧
    handleRefresh demo demoState demoDB { demoEnv 4000000000 7 with lookupFails := true }
        ⟨"POST", "", some ⟨"tokA"⟩⟩ = (httpError "invalid refresh token" 401, demoDB) :=
  ⟨by decide,
    (lookup_failure_reported_as_invalid demo demoState demoDB (demoEnv 4000000000 7) "" "tokA"
      (by decide)).1⟩

/-! ## Records are never removed or reactivated (C6) -/

theorem recordKept_invariant (r : RefreshTokenRecord) :
    StoreInvariant (fun _ => True) fun db => RecordKept r db.refresh_tokens where
  update := by
    intro db h fails db' hk hup
    rw [updateRevoked_ok db h fails db' hup]
    rcases hk with hmem | ⟨hrev, hmem⟩
    · by_cases hc : r.token_hash = h
      · cases hrv : r.revoked with
        | true =>
          left
          simp only [List.mem_map]
          refine ⟨r, hmem, ?_⟩
          simp only [hc, beq_self_eq_true, if_true]
          cases r
          simp_all
        | false =>
          right
          refine ⟨hrv, ?_⟩
          simp only [List.mem_map]
          exact ⟨r, hmem, by simp [hc]⟩
      · left
        simp only [List.mem_map]
        exact ⟨r, hmem, by simp [hc]⟩
    · right
      refine ⟨hrev, ?_⟩
      simp only [List.mem_map]
      refine ⟨_, hmem, ?_⟩
      split <;> rfl
  insert := by
    intro db u h e fails db' hk _ hins
    obtain ⟨_, rfl⟩ := insertRefreshToken_ok db u h e fails db' hins
    rcases hk with hmem | ⟨hrev, hmem⟩
    · exact Or.inl (List.mem_append_left _ hmem)
    · exact Or.inr ⟨hrev, List.mem_append_left _ hmem⟩

theorem RecordKept.of_revoked {r : RefreshTokenRecord} {rows : List RefreshTokenRecord}
    (hk : RecordKept r rows) (hrev : r.revoked = true) : r ∈ rows := by
  rcases hk with hmem | ⟨hf, _⟩
  · exact hmem
  · rw [hrev] at hf
    cases hf

/-- C6: every record of the store is still in the store after `issueTokens`,
`revokeRefreshToken`, `handleRefresh`, `handleLogout`, and after any sequence
of operations, whatever their inputs and surroundings: it is there unchanged,
or it was unrevoked and is there with `revoked` set (`RecordKept`).  A record
that was revoked before is there unchanged, hence still revoked. -/
theorem revoked_records_kept (lib : Lib) (st : appState) (db : DB) (r : RefreshTokenRecord)
    (hr : r ∈ db.refresh_tokens) (ienv : IssueEnv) (userID : String) (roles : List String)
    (fails : Bool) (raw : String) (renv : RefreshEnv) (rreq : Request refreshRequest)
    (lfails : Bool) (lreq : Request logoutRequest) (ops : List Op) :
    (RecordKept r (issueTokens lib st db ienv userID roles).2.refresh_tokens ∧
      RecordKept r (revokeRefreshToken lib db fails raw).2.refresh_tokens ∧
      RecordKept r (handleRefresh lib st db renv rreq).2.refresh_tokens ∧
      RecordKept r (handleLogout lib db lfails lreq).2.refresh_tokens ∧
      RecordKept r (runOps lib st db ops).refresh_tokens) ∧
    (r.revoked = true →
      r ∈ (issueTokens lib st db ienv userID roles).2.refresh_tokens ∧
      r ∈ (revokeRefreshToken lib db fails raw).2.refresh_tokens ∧
      r ∈ (handleRefresh lib st db renv rreq).2.refresh_tokens ∧
      r ∈ (handleLogout lib db lfails lreq).2.refresh_tokens ∧
      r ∈ (runOps lib st db ops).refresh_tokens) := by
  have h0 : RecordKept r db.refresh_tokens := Or.inl hr
  have hI := recordKept_invariant r
  have h1 := issueTokens_keeps hI lib st db ienv userID roles (fun _ _ => trivial) h0
  have h2 := revokeRefreshToken_keeps hI lib db fails raw h0
  have h3 := handleRefresh_keeps hI lib st db renv rreq (fun _ _ => trivial) h0
  have h4 := handleLogout_keeps hI lib db lfails lreq h0
  have h5 := runOps_keeps hI lib st ops db (fun _ _ _ _ => trivial) h0
  exact ⟨⟨h1, h2, h3, h4, h5⟩, fun hrev =>
    ⟨h1.of_revoked hrev, h2.of_revoked hrev, h3.of_revoked hrev, h4.of_revoked hrev,
      h5.of_revoked hrev⟩⟩

/-- C6, at a concrete input: after `tokA` has been revoked, its revoked record
survives an issuance, a second revoke, a refresh and a logout. -/
theorem revoked_records_kept_witness :
    ({ demoRecord with revoked := true } : RefreshTokenRecord) ∈
      (revokeRefreshToken demo demoDB false "tokA").2.refresh_tokens ∧
    ({ demoRecord with revoked := true } : RefreshTokenRecord) ∈
      (handleRefresh demo demoState (revokeRefreshToken demo demoDB false "tokA").2
        (demoEnv 4000000000 7) demoRefresh).2.refresh_tokens :=
  ⟨by decide,
    ((revoked_records_kept demo demoState (revokeRefreshToken demo demoDB false "tokA").2
      { demoRecord with revoked := true } (by decide) (demoEnv 0 7).issue "u1" ["user"] false
      "tokA" (demoEnv 4000000000 7) demoRefresh false
      ⟨"POST", "", some ⟨"tokA"⟩⟩ []).2 rfl).2.2.1⟩

/-! ## Issue and verify (C7) -/

theorem issueTokens_access (lib : Lib) (st : appState) (db db' : DB) (env : IssueEnv)
    (userID : String) (roles : List String) (resp : tokenResponse)
    (hissue : issueTokens lib st db env userID roles = (.ok resp, db')) :
    lib.signedString (accessClaims st env.now userID roles) st.privateKey
      = some resp.AccessToken := by
  unfold issueTokens at hissue
  dsimp only at hissue
  cases hs : lib.signedString (accessClaims st env.now userID roles) st.privateKey with
  | none => rw [hs] at hissue; cases hissue
  | some accessSigned =>
    rw [hs] at hissue
    dsimp only at hissue
    cases hn : newRefreshToken env.rand with
    | error e => rw [hn] at hissue; cases hissue
    | ok refreshRaw =>
      rw [hn] at hissue
      dsimp only at hissue
      cases hins : db.insertRefreshToken userID (hashToken lib refreshRaw)
          (Time.Add env.now st.refreshTTL) env.insertFails with
      | error e => rw [hins] at hissue; cases hissue
      | ok db1 =>
        rw [hins] at hissue
        cases hissue
        rfl

/-- C7: when the public key of the state matches its private key, the access
token returned by `issueTokens` for `userID` and `roles`, presented to
`handleMe` of the same state in a GET request at any time before the token's
expires-at, is accepted: the answer is 200 with the subject `userID`, the role
list `roles` as given, the configured issuer and audience, and the expiry in
seconds. -/
theorem issue_verify_roundtrip (lib : Lib) (st : appState) (db db' : DB) (env : IssueEnv)
    (userID : String) (roles : List String) (resp : tokenResponse) (r : Request Unit)
    (nowV : Time) (hkey : lib.KeyPair st.privateKey st.publicKey)
    (hissue : issueTokens lib st db env userID roles = (.ok resp, db'))
    (hget : r.Method = "GET")
    (hbearer : bearerToken lib r.Authorization = resp.AccessToken)
    (hbefore : nowV < Time.TruncateSecond (Time.Add env.now st.accessTTL)) :
    handleMe lib st nowV r =
      some (writeJSON 200 (.me userID roles st.issuer [st.audience]
        (Time.Unix (Time.TruncateSecond (Time.Add env.now st.accessTTL))))) := by
  have hs := issueTokens_access lib st db db' env userID roles resp hissue
  obtain ⟨hne, t, hparse, halg, hclaims, hver⟩ := hkey _ _ hs
  unfold handleMe
  simp only [hget, hbearer]
  unfold parseWithClaims keyFunc
  simp only [hparse, halg]
  rw [← halg] at hver
  simp only [halg] at hver
  simp [hne, hver, hclaims, validateClaims, customClaims.view, accessClaims, Time.Before,
    hbefore]

theorem demo_keyPair : demo.KeyPair demoKey demoKey.PublicKey := by
  intro c s hs
  simp only [demo, demoLib] at hs
  split at hs
  · rename_i hc
    cases hs
    refine ⟨by decide, ⟨"RS256", demoClaims, "signed", [demoKey.D]⟩, ?_, rfl, hc.1.symm, ?_⟩
    · simp [demo, demoLib]
    · simp [demo, demoLib]
  · cases hs

/-- C7, at a concrete input: the token issued to `u1` at second 5 is presented
at second 6 and accepted with the subject `u1` and the roles `["user"]`. -/
theorem issue_verify_roundtrip_witness :
    demo.KeyPair demoState.privateKey demoState.publicKey ∧
    (issueTokens demo demoState demoDB (demoEnv 0 7).issue "u1" ["user"]).1 =
      .ok { AccessToken := "signed", RefreshToken := rawURLEncode (List.replicate 32 7),
            TokenType := "Bearer", ExpiresIn := 900 } ∧
    bearerToken demo "Bearer signed" = "signed" ∧
    (6000000000 : Time) <
      Time.TruncateSecond (Time.Add (demoEnv 0 7).issue.now demoState.accessTTL) ∧
    handleMe demo demoState 6000000000 ⟨"GET", "Bearer signed", some ()⟩ =
      some (writeJSON 200 (.me "u1" ["user"] "fintech-auth" ["fintech-platform"] 905)) :=
  ⟨demo_keyPair, rfl, by decide, by decide,
    issue_verify_roundtrip demo demoState demoDB
      (issueTokens demo demoState demoDB (demoEnv 0 7).issue "u1" ["user"]).2
      (demoEnv 0 7).issue "u1" ["user"]
      { AccessToken := "signed", RefreshToken := rawURLEncode (List.replicate 32 7),
        TokenType := "Bearer", ExpiresIn := 900 }
      ⟨"GET", "Bearer signed", some ()⟩ 6000000000 demo_keyPair rfl rfl (by decide)
      (by decide)⟩

/-! ## Algorithm pinning (C8) -/

/-- C8: for every presented token whose header names an algorithm other than
RS256 (`t` and `tm` are what the library parses from it for the auth service
and for the gateway), both key functions return an error instead of the public
key, `handleMe` answers `invalid token` (401) and the gateway's middleware
answers `invalid_token` (401) without calling the protected handler, whatever
the claims, the signature bytes, the time and the library's signature check. -/
theorem alg_pinning (lib : Lib) (st : appState) (cfg : Gateway.Config) (nowV : Time)
    (r : Request Unit) (tokenStr : String) (t : Token customClaims) (tm : Token MapClaims)
    (next : MapClaims → Gateway.Response)
    (hget : r.Method = "GET") (hbearer : bearerToken lib r.Authorization = tokenStr)
    (hne : tokenStr ≠ "")
    (hparse : lib.parseUnverified tokenStr = some t) (halg : t.Alg ≠ "RS256")
    (hparsem : lib.parseUnverifiedMap tokenStr = some tm) (halgm : tm.Alg ≠ "RS256") :
    keyFunc st t = .error ("unexpected alg: " ++ t.Alg) ∧
    handleMe lib st nowV r = some (httpError "invalid token" 401) ∧
    Gateway.keyFunc cfg tm = .error ("unexpected alg: " ++ tm.Alg) ∧
    Gateway.authMiddlewareVerify lib cfg nowV tokenStr next =
      { status := 401, body := .error "invalid_token" } := by
  have hk : keyFunc st t = .error ("unexpected alg: " ++ t.Alg) := by
    unfold keyFunc
    simp [halg]
  have hkm : Gateway.keyFunc cfg tm = .error ("unexpected alg: " ++ tm.Alg) := by
    unfold Gateway.keyFunc
    simp [halgm]
  refine ⟨hk, ?_, hkm, ?_⟩
  · unfold handleMe parseWithClaims
    simp [hget, hbearer, hne, hparse, hk]
  · unfold Gateway.authMiddlewareVerify parseWithClaims
    simp only [hparsem, hkm]
    simp

/-- C8, at a concrete input: the token `unsigned` names the algorithm `none`. -/
theorem alg_pinning_witness :
    bearerToken demo "Bearer unsigned" = "unsigned" ∧
    (∃ t, demo.parseUnverified "unsigned" = some t ∧ t.Alg ≠ "RS256") ∧
    (∃ tm, demo.parseUnverifiedMap "unsigned" = some tm ∧ tm.Alg ≠ "RS256") ∧
    handleMe demo demoState 6000000000 ⟨"GET", "Bearer unsigned", some ()⟩ =
      some (httpError "invalid token" 401) ∧
    Gateway.authMiddlewareVerify demo
        { AppName := "api-gateway", Environment := "prod", Port := "8080",
          JWTAudience := "fintech-platform", JWTIssuer := "fintech-auth",
          JWTPublicKey := demoKey.PublicKey }
        6000000000 "unsigned" Gateway.meHandler =
      { status := 401, body := .error "invalid_token" } :=
  have h := alg_pinning demo demoState
    { AppName := "api-gateway", Environment := "prod", Port := "8080",
      JWTAudience := "fintech-platform", JWTIssuer := "fintech-auth",
      JWTPublicKey := demoKey.PublicKey }
    6000000000 ⟨"GET", "Bearer unsigned", some ()⟩ "unsigned"
    { Alg := "none", Claims := demoClaims, SigningString := "unsigned", Signature := [] }
    { Alg := "none"
      Claims := { exp := some demoClaims.ExpiresAt, nbf := some none,
                  aud := some demoClaims.Audience, iss := some demoClaims.Issuer }
      SigningString := "unsigned", Signature := [] }
    Gateway.meHandler rfl (by decide) (by decide) rfl (by decide) rfl (by decide)
  ⟨by decide, ⟨_, rfl, by decide⟩, ⟨_, rfl, by decide⟩, h.2.1, h.2.2.2⟩

/-! ## Further properties -/

/-- Login half of C3: a login whose user row has a status other than `active`
is refused with `user not active` (403), nothing is issued and the store is
unchanged, whatever the password. -/
theorem login_refuses_inactive (lib : Lib) (st : appState) (db : DB) (env : LoginEnv)
    (auth : String) (req : loginRequest) (u : User)
    (hemail : ToLower lib (TrimSpace req.Email) ≠ "") (hpass : TrimSpace req.Password ≠ "")
    (hrow : db.selectUserByEmail (ToLower lib (TrimSpace req.Email)) env.lookupFails = .ok u)
    (hstatus : u.status ≠ "active") :
    handleLogin lib st db env ⟨"POST", auth, some req⟩ =
      (httpError "user not active" 403, db) := by
  unfold handleLogin
  simp [hemail, hpass, hrow, hstatus]

/-- Login half of C3, at a concrete input: the suspended principal `u1`. -/
theorem login_refuses_inactive_witness :
    ToLower demo (TrimSpace "A@b.c ") ≠ "" ∧ TrimSpace "pw" ≠ "" ∧
    (∃ u, demoDB.selectUserByEmail (ToLower demo (TrimSpace "A@b.c ")) false = .ok u ∧
      u.status ≠ "active") ∧
    handleLogin demo demoState demoDB
        { lookupFails := false, rolesFail := false, issue := (demoEnv 0 7).issue }
        ⟨"POST", "", some ⟨"A@b.c ", "pw"⟩⟩ = (httpError "user not active" 403, demoDB) :=
  ⟨by decide, by decide, ⟨_, rfl, by decide⟩,
    login_refuses_inactive demo demoState demoDB
      { lookupFails := false, rolesFail := false, issue := (demoEnv 0 7).issue } ""
      ⟨"A@b.c ", "pw"⟩ _ (by decide) (by decide) rfl (by decide)⟩

theorem wrapInt64_mul_second (n : Int) (hpos : 0 < n) (hle : n ≤ 9223372036) :
    wrapInt64 (n * Second) = n * Second := by
  unfold wrapInt64 Second
  norm_num
  omega

/-- In-range half of C9: when the trimmed text parses to `n` with
`0 < n ≤ 9223372036`, the product does not wrap: the TTL is `n` seconds, it is
positive, and the claims satisfy expires-at = issued-at + TTL > issued-at.
When the text does not parse, or parses to `n ≤ 0`, the TTL is 15 minutes. -/
theorem mustDurationSeconds_in_range (s : String) :
    (∀ n, ParseInt (TrimSpace s) = some n → 0 < n → n ≤ 9223372036 →
      mustDurationSeconds s = n * Second ∧ 0 < mustDurationSeconds s ∧
      ∀ (st : appState) (now : Time) (userID : String) (roles : List String),
        st.accessTTL = mustDurationSeconds s →
        ∃ iat exp, (accessClaims st now userID roles).IssuedAt = some iat ∧
          (accessClaims st now userID roles).ExpiresAt = some exp ∧
          exp = iat + st.accessTTL ∧ iat < exp) ∧
    (ParseInt (TrimSpace s) = none → mustDurationSeconds s = 15 * Minute) ∧
    (∀ n, ParseInt (TrimSpace s) = some n → n ≤ 0 → mustDurationSeconds s = 15 * Minute) := by
  refine ⟨?_, ?_, ?_⟩
  · intro n hp hpos hle
    have hm : mustDurationSeconds s = n * Second := by
      unfold mustDurationSeconds
      simp only [hp, not_le.mpr hpos, if_false]
      exact wrapInt64_mul_second n hpos hle
    have hposd : 0 < n * Second := Int.mul_pos hpos (by decide)
    refine ⟨hm, hm ▸ hposd, ?_⟩
    intro st now userID roles hst
    have hmod : (now + n * Second) % Second = now % Second := Int.add_mul_emod_self
    refine ⟨_, _, rfl, rfl, ?_, ?_⟩
    · rw [hst, hm]
      unfold Time.TruncateSecond Time.Add
      rw [hmod]; ring
    · rw [hst, hm]
      unfold Time.TruncateSecond Time.Add
      rw [hmod]
      linarith
  · intro hp
    unfold mustDurationSeconds
    simp [hp]
  · intro n hp hle
    unfold mustDurationSeconds
    simp [hp, hle]

/-- In-range half of C9, at a concrete input: the default of 900 seconds. -/
theorem mustDurationSeconds_in_range_witness :
    ParseInt (TrimSpace "900") = some 900 ∧ mustDurationSeconds "900" = 900 * Second ∧
    mustDurationSeconds "fifteen" = 15 * Minute :=
  ⟨by decide,
    ((mustDurationSeconds_in_range "900").1 900 (by decide) (by decide) (by decide)).1,
    (mustDurationSeconds_in_range "fifteen").2.1 (by decide)⟩

/-! ## Issuance is all or nothing (C13) -/

theorem issueTokens_cases (lib : Lib) (st : appState) (db : DB) (env : IssueEnv)
    (userID : String) (roles : List String) :
    (∃ access b, lib.signedString (accessClaims st env.now userID roles) st.privateKey
          = some access ∧ env.rand = some b ∧ env.insertFails = false ∧
        (∀ r ∈ db.refresh_tokens, r.token_hash ≠ hashToken lib (rawURLEncode b)) ∧
        issueTokens lib st db env userID roles =
          (.ok { AccessToken := access, RefreshToken := rawURLEncode b, TokenType := "Bearer",
                 ExpiresIn := Duration.SecondsInt64 st.accessTTL },
            { db with refresh_tokens := db.refresh_tokens ++
                [{ user_id := userID, token_hash := hashToken lib (rawURLEncode b),
                   expires_at := Time.Add env.now st.refreshTTL, revoked := false }] })) ∨
    (∃ e, issueTokens lib st db env userID roles = (.error e, db) ∧
      (lib.signedString (accessClaims st env.now userID roles) st.privateKey = none ∨
        env.rand = none ∨ env.insertFails = true ∨
        ∃ b, env.rand = some b ∧
          ∃ r ∈ db.refresh_tokens, r.token_hash = hashToken lib (rawURLEncode b))) := by
  unfold issueTokens
  dsimp only
  cases hs : lib.signedString (accessClaims st env.now userID roles) st.privateKey with
  | none => exact Or.inr ⟨_, rfl, Or.inl rfl⟩
  | some access =>
    dsimp only
    cases hr : env.rand with
    | none => exact Or.inr ⟨_, rfl, Or.inr (Or.inl rfl)⟩
    | some b =>
      simp only [newRefreshToken]
      cases hins : db.insertRefreshToken userID (hashToken lib (rawURLEncode b))
          (Time.Add env.now st.refreshTTL) env.insertFails with
      | error e =>
        refine Or.inr ⟨_, rfl, Or.inr (Or.inr ?_)⟩
        unfold DB.insertRefreshToken at hins
        cases hf : env.insertFails with
        | true => exact Or.inl rfl
        | false =>
          right
          refine ⟨b, rfl, ?_⟩
          rw [hf] at hins
          simp only [Bool.false_eq_true, if_false] at hins
          split at hins
          · rename_i hany
            rw [List.any_eq_true] at hany
            obtain ⟨r, hr, hh⟩ := hany
            exact ⟨r, hr, by simpa using hh⟩
          · cases hins
      | ok db' =>
        obtain ⟨hfresh, rfl⟩ := insertRefreshToken_ok _ _ _ _ _ _ hins
        have hf : env.insertFails = false := by
          unfold DB.insertRefreshToken at hins
          cases hf : env.insertFails with
          | true => rw [hf] at hins; cases hins
          | false => rfl
        exact Or.inl ⟨access, b, rfl, rfl, hf, hfresh, rfl⟩

/-- C13: `issueTokens` returns either a complete token response with no error
and the store extended by exactly one record, unrevoked, owned by the
principal, with the hash of the returned refresh value and the expiry
`now + refreshTTL`; or an error with no token response and the store unchanged.
When signing, random generation or the INSERT fails, the outcome is the
second. -/
theorem issueTokens_all_or_nothing (lib : Lib) (st : appState) (db : DB) (env : IssueEnv)
    (userID : String) (roles : List String) :
    ((∃ resp, issueTokens lib st db env userID roles =
          (.ok resp,
            { db with refresh_tokens := db.refresh_tokens ++
                [{ user_id := userID, token_hash := hashToken lib resp.RefreshToken,
                   expires_at := Time.Add env.now st.refreshTTL, revoked := false }] }) ∧
        lib.signedString (accessClaims st env.now userID roles) st.privateKey
          = some resp.AccessToken ∧
        newRefreshToken env.rand = .ok resp.RefreshToken ∧ resp.TokenType = "Bearer") ∨
      (∃ e, issueTokens lib st db env userID roles = (.error e, db))) ∧
    (lib.signedString (accessClaims st env.now userID roles) st.privateKey = none ∨
        env.rand = none ∨ env.insertFails = true →
      ∃ e, issueTokens lib st db env userID roles = (.error e, db)) := by
  constructor
  · rcases issueTokens_cases lib st db env userID roles with
      ⟨access, b, hs, hr, _, _, heq⟩ | ⟨e, heq, _⟩
    · left
      refine ⟨_, heq, hs, ?_, rfl⟩
      simp [newRefreshToken, hr]
    · exact Or.inr ⟨e, heq⟩
  · intro hfail
    rcases issueTokens_cases lib st db env userID roles with
      ⟨access, b, hs, hr, hf, _, _⟩ | ⟨e, heq, _⟩
    · rcases hfail with h | h | h
      · rw [hs] at h; cases h
      · rw [hr] at h; cases h
      · rw [hf] at h; cases h
    · exact ⟨e, heq⟩

/-- C13, at a concrete input: an issuance that succeeds and one whose INSERT
fails. -/
theorem issueTokens_all_or_nothing_witness :
    issueTokens demo demoState demoDB (demoEnv 0 7).issue "u1" ["user"] =
      (.ok { AccessToken := "signed", RefreshToken := rawURLEncode (List.replicate 32 7),
             TokenType := "Bearer", ExpiresIn := 900 },
        { demoDB with refresh_tokens := demoDB.refresh_tokens ++
            [{ user_id := "u1",
               token_hash := hashToken demo (rawURLEncode (List.replicate 32 7)),
               expires_at := 604805000000000, revoked := false }] }) ∧
    ∃ e, issueTokens demo demoState demoDB { (demoEnv 0 7).issue with insertFails := true }
      "u1" ["user"] = (.error e, demoDB) :=
  ⟨rfl, (issueTokens_all_or_nothing demo demoState demoDB
    { (demoEnv 0 7).issue with insertFails := true } "u1" ["user"]).2 (Or.inr (Or.inr rfl))⟩

/-! ## An unknown refresh string (C11) -/

/-- C11 as stated fails on two kinds of presented strings whose hash matches
no record: the empty string is answered with `refresh_token is required` (400),
and `tokA` behind a blank is trimmed by the handler, found, and redeemed with
200. -/
theorem unknown_token_not_always_401 :
    (∀ r ∈ demoDB.refresh_tokens, r.token_hash ≠ hashToken demo "") ∧
    (handleRefresh demo demoState demoDB (demoEnv 4000000000 7) ⟨"POST", "", some ⟨""⟩⟩).1 =
      httpError "refresh_token is required" 400 ∧
    (∀ r ∈ demoDB.refresh_tokens, r.token_hash ≠ hashToken demo " tokA") ∧
    (handleRefresh demo demoState demoDB (demoEnv 4000000000 7)
      ⟨"POST", "", some ⟨" tokA"⟩⟩).1.status = 200 := by
  refine ⟨by decide, by decide, by decide, by decide⟩

/-- C11, amended: for every store and every presented string that is not empty
after trimming and whose trimmed value has a hash that matches no record, the
refresh request is answered with `invalid refresh token` (401), no token pair
is issued and the store is left unchanged, whatever the surroundings. -/
theorem unknown_token_rejected (lib : Lib) (st : appState) (db : DB) (env : RefreshEnv)
    (auth raw : String) (hne : TrimSpace raw ≠ "")
    (habs : ∀ r ∈ db.refresh_tokens, r.token_hash ≠ hashToken lib (TrimSpace raw)) :
    handleRefresh lib st db env ⟨"POST", auth, some ⟨raw⟩⟩ =
      (httpError "invalid refresh token" 401, db) := by
  unfold handleRefresh
  simp only [validate_absent lib db env.now env.lookupFails _ habs]
  simp [hne]

/-- C11, amended, at a concrete input: the string of the spec's scenario. -/
theorem unknown_token_rejected_witness :
    TrimSpace "not-a-real-token" ≠ "" ∧
    (∀ r ∈ demoDB.refresh_tokens,
      r.token_hash ≠ hashToken demo (TrimSpace "not-a-real-token")) ∧
    handleRefresh demo demoState demoDB (demoEnv 4000000000 7)
        ⟨"POST", "", some ⟨"not-a-real-token"⟩⟩ =
      (httpError "invalid refresh token" 401, demoDB) :=
  ⟨by decide, by decide,
    unknown_token_rejected demo demoState demoDB (demoEnv 4000000000 7) "" "not-a-real-token"
      (by decide) (by decide)⟩

/-! ## Logout tells nothing about the token (C12) -/

/-- C12: for every POST logout request whose body decodes and carries a
refresh token that is not empty after trimming, `handleLogout` answers 200 with
the acknowledgment `{"ok": true}`, for every store and every result of the
UPDATE, an error included; so the responses for any two stores and any two
results of the UPDATE are equal. -/
theorem logout_response_independent (lib : Lib) (auth raw : String)
    (hne : TrimSpace raw ≠ "") (db1 db2 : DB) (fails1 fails2 : Bool) :
    (handleLogout lib db1 fails1 ⟨"POST", auth, some ⟨raw⟩⟩).1 = writeJSON 200 .ack ∧
    (handleLogout lib db1 fails1 ⟨"POST", auth, some ⟨raw⟩⟩).1 =
      (handleLogout lib db2 fails2 ⟨"POST", auth, some ⟨raw⟩⟩).1 := by
  have h : ∀ (db : DB) (fails : Bool),
      (handleLogout lib db fails ⟨"POST", auth, some ⟨raw⟩⟩).1 = writeJSON 200 .ack := by
    intro db fails
    unfold handleLogout
    simp [hne]
  exact ⟨h db1 fails1, (h db1 fails1).trans (h db2 fails2).symm⟩

/-- C12, at a concrete input: `tokA` is active in the first store and absent
from the second, where moreover the UPDATE fails. -/
theorem logout_response_independent_witness :
    TrimSpace "tokA" ≠ "" ∧
    (handleLogout demo demoDB false ⟨"POST", "", some ⟨"tokA"⟩⟩).1 =
      (handleLogout demo { demoDB with refresh_tokens := [] } true
        ⟨"POST", "", some ⟨"tokA"⟩⟩).1 :=
  ⟨by decide,
    (logout_response_independent demo "" "tokA" (by decide) demoDB
      { demoDB with refresh_tokens := [] } false true).2⟩

/-! ## What a successful login or refresh went through -/

theorem handleLogin_success (lib : Lib) (st : appState) (db db' : DB) (env : LoginEnv)
    (r : Request loginRequest) (resp : tokenResponse)
    (h : handleLogin lib st db env r = (writeJSON 200 (.tokens resp), db')) :
    ∃ u roles, db.selectUserByEmail
        (ToLower lib (TrimSpace ((r.Json.getD ⟨"", ""⟩).Email))) env.lookupFails = .ok u ∧
      u.status = "active" ∧
      getUserRoles db u.id env.rolesFail = .ok roles ∧
      issueTokens lib st db env.issue u.id roles = (.ok resp, db') := by
  unfold handleLogin at h
  split at h
  · simp [httpError, writeJSON] at h
  · cases hj : r.Json with
    | none => rw [hj] at h; simp [httpError, writeJSON] at h
    | some req =>
      rw [hj] at h
      dsimp only at h
      split at h
      · simp [httpError, writeJSON] at h
      · cases hu : db.selectUserByEmail (ToLower lib (TrimSpace req.Email)) env.lookupFails with
        | error e => rw [hu] at h; simp [httpError, writeJSON] at h
        | ok u =>
          rw [hu] at h
          dsimp only at h
          split at h
          · simp [httpError, writeJSON] at h
          · rename_i hstatus
            split at h
            · simp [httpError, writeJSON] at h
            · cases hr : getUserRoles db u.id env.rolesFail with
              | error e => rw [hr] at h; simp [httpError, writeJSON] at h
              | ok roles =>
                rw [hr] at h
                dsimp only at h
                rcases hi : issueTokens lib st db env.issue u.id roles with ⟨res, db2⟩
                rw [hi] at h
                cases res with
                | error e => simp [httpError, writeJSON] at h
                | ok resp2 =>
                  simp only [writeJSON, Prod.mk.injEq, Response.mk.injEq, Body.tokens.injEq,
                    true_and] at h
                  obtain ⟨rfl, rfl⟩ := h
                  refine ⟨u, roles, by simpa [hj] using hu, ?_, hr, hi⟩
                  simpa using hstatus

theorem handleRefresh_success (lib : Lib) (st : appState) (db db' : DB) (env : RefreshEnv)
    (r : Request refreshRequest) (resp : tokenResponse)
    (h : handleRefresh lib st db env r = (writeJSON 200 (.tokens resp), db')) :
    ∃ req userID roles db1, r.Json = some req ∧ TrimSpace req.RefreshToken ≠ "" ∧
      validateRefreshToken lib db env.now env.lookupFails (TrimSpace req.RefreshToken)
        = (userID, true) ∧
      getUserRoles db userID env.rolesFail = .ok roles ∧
      revokeRefreshToken lib db env.revokeFails (TrimSpace req.RefreshToken) = (none, db1) ∧
      issueTokens lib st db1 env.issue userID roles = (.ok resp, db') := by
  unfold handleRefresh at h
  split at h
  · simp [httpError, writeJSON] at h
  · cases hj : r.Json with
    | none => rw [hj] at h; simp [httpError, writeJSON] at h
    | some req =>
      rw [hj] at h
      dsimp only at h
      split at h
      · simp [httpError, writeJSON] at h
      · rename_i hne
        rcases hv : validateRefreshToken lib db env.now env.lookupFails
          (TrimSpace req.RefreshToken) with ⟨userID, ok⟩
        rw [hv] at h
        cases ok with
        | false => simp [httpError, writeJSON] at h
        | true =>
          dsimp only at h
          cases hr : getUserRoles db userID env.rolesFail with
          | error e => rw [hr] at h; simp [httpError, writeJSON] at h
          | ok roles =>
            rw [hr] at h
            dsimp only at h
            rcases hk : revokeRefreshToken lib db env.revokeFails (TrimSpace req.RefreshToken)
              with ⟨err, db1⟩
            rw [hk] at h
            cases err with
            | some e => simp [httpError, writeJSON] at h
            | none =>
              dsimp only at h
              rcases hi : issueTokens lib st db1 env.issue userID roles with ⟨res, db2⟩
              rw [hi] at h
              cases res with
              | error e => simp [httpError, writeJSON] at h
              | ok resp2 =>
                simp only [writeJSON, Prod.mk.injEq, Response.mk.injEq, Body.tokens.injEq,
                  true_and] at h
                obtain ⟨rfl, rfl⟩ := h
                exact ⟨req, userID, roles, db1, rfl, by simpa using hne, hv, hr, hk, hi⟩

/-! ## The default role (C15) -/

theorem getUserRoles_ne_nil (db : DB) (userID : String) (fails : Bool) (roles : List String)
    (h : getUserRoles db userID fails = .ok roles) : roles ≠ [] := by
  unfold getUserRoles at h
  cases hq : db.selectRoleNames userID fails with
  | error e => rw [hq] at h; cases h
  | ok names =>
    rw [hq] at h
    dsimp only at h
    split at h
    · cases h; simp
    · rename_i hlen
      cases h
      intro hnil
      exact hlen (by rw [hnil]; rfl)

/-- C15: when the role query returns the list `names`, `getUserRoles` returns
`names` itself (same order, duplicates kept) if it is not empty and `["user"]`
if it is empty; a list it returns is never empty, and the claim set signed by a
login or a refresh that is answered with 200 carries a role list that is not
empty. -/
theorem getUserRoles_default (lib : Lib) (st : appState) (db : DB) (userID : String)
    (fails : Bool) (names : List String)
    (hq : db.selectRoleNames userID fails = .ok names) :
    getUserRoles db userID fails = .ok (if names = [] then ["user"] else names) ∧
    (∀ u f roles, getUserRoles db u f = .ok roles → roles ≠ []) ∧
    (∀ (env : LoginEnv) (r : Request loginRequest) (resp : tokenResponse) (db' : DB),
      handleLogin lib st db env r = (writeJSON 200 (.tokens resp), db') →
      ∃ u roles, roles ≠ [] ∧
        lib.signedString (accessClaims st env.issue.now u roles) st.privateKey
          = some resp.AccessToken) ∧
    (∀ (env : RefreshEnv) (r : Request refreshRequest) (resp : tokenResponse) (db' : DB),
      handleRefresh lib st db env r = (writeJSON 200 (.tokens resp), db') →
      ∃ u roles, roles ≠ [] ∧
        lib.signedString (accessClaims st env.issue.now u roles) st.privateKey
          = some resp.AccessToken) := by
  refine ⟨?_, ?_, ?_, ?_⟩
  · unfold getUserRoles
    rw [hq]
    dsimp only
    cases names with
    | nil => simp
    | cons a l => simp
  · intro u f roles h
    exact getUserRoles_ne_nil db u f roles h
  · intro env r resp db' h
    obtain ⟨u, roles, _, _, hr, hi⟩ := handleLogin_success lib st db db' env r resp h
    exact ⟨u.id, roles, getUserRoles_ne_nil db u.id _ roles hr,
      issueTokens_access lib st db db' env.issue u.id roles resp hi⟩
  · intro env r resp db' h
    obtain ⟨req, uid, roles, db1, _, _, _, hr, _, hi⟩ :=
      handleRefresh_success lib st db db' env r resp h
    exact ⟨uid, roles, getUserRoles_ne_nil db uid _ roles hr,
      issueTokens_access lib st db1 db' env.issue uid roles resp hi⟩

/-- C15, at concrete inputs: a principal without a role row gets `["user"]`, a
principal with the rows admin, user, admin gets them as they are. -/
theorem getUserRoles_default_witness :
    demoDB.selectRoleNames "u1" false = .ok [] ∧
    getUserRoles demoDB "u1" false = .ok ["user"] ∧
    getUserRoles { demoDB with user_roles :=
        [("u2", "admin"), ("u1", "ops"), ("u2", "user"), ("u2", "admin")] } "u2" false =
      .ok ["admin", "user", "admin"] :=
  ⟨rfl,
    (getUserRoles_default demo demoState demoDB "u1" false [] rfl).1,
    (getUserRoles_default demo demoState
      { demoDB with user_roles :=
        [("u2", "admin"), ("u1", "ops"), ("u2", "user"), ("u2", "admin")] } "u2" false
      ["admin", "user", "admin"] rfl).1⟩

/-! ## What a failed refresh leaves behind (C20) -/

theorem validate_true (lib : Lib) (db : DB) (now : Time) (fails : Bool) (raw userID : String)
    (h : validateRefreshToken lib db now fails raw = (userID, true)) :
    ∃ rec, db.refresh_tokens.find? (fun r => r.token_hash == hashToken lib raw) = some rec ∧
      rec ∈ db.refresh_tokens ∧ rec.token_hash = hashToken lib raw ∧ rec.user_id = userID ∧
      rec.revoked = false ∧ now ≤ rec.expires_at ∧ fails = false := by
  unfold validateRefreshToken DB.selectRefreshToken at h
  cases fails with
  | true => simp at h
  | false =>
    simp only [Bool.false_eq_true, if_false] at h
    cases hf : db.refresh_tokens.find? (fun r => r.token_hash == hashToken lib raw) with
    | none => rw [hf] at h; simp at h
    | some rec =>
      rw [hf] at h
      dsimp only at h
      split at h
      · simp at h
      · rename_i hcond
        simp only [Prod.mk.injEq, and_true] at h
        simp only [Bool.or_eq_true, Time.After, decide_eq_true_eq, not_or, not_lt,
          Bool.not_eq_true] at hcond
        exact ⟨rec, rfl, List.mem_of_find?_eq_some hf, by simpa using List.find?_some hf, h,
          hcond.1, hcond.2, rfl⟩

/-- C20: for every store and every refresh request (POST, token not empty
after trimming): when the request fails at token validation the answer is 401
and the store is unchanged; when it fails at role resolution the answer is 500
and the store is unchanged; when validation, role resolution and the revoke
succeeded and `issueTokens` fails, the answer is 500 with no token, the store
differs from the one before only in that the records with the presented
token's hash are revoked, and the presented token is rejected by
`validateRefreshToken` from then on. -/
theorem failed_refresh_effect (lib : Lib) (st : appState) (db : DB) (env : RefreshEnv)
    (auth raw : String) (hne : TrimSpace raw ≠ "") :
    ((validateRefreshToken lib db env.now env.lookupFails (TrimSpace raw)).2 = false →
      handleRefresh lib st db env ⟨"POST", auth, some ⟨raw⟩⟩ =
        (httpError "invalid refresh token" 401, db)) ∧
    (∀ userID e,
      validateRefreshToken lib db env.now env.lookupFails (TrimSpace raw) = (userID, true) →
      getUserRoles db userID env.rolesFail = .error e →
      handleRefresh lib st db env ⟨"POST", auth, some ⟨raw⟩⟩ =
        (httpError "failed to load roles" 500, db)) ∧
    (∀ userID roles e,
      validateRefreshToken lib db env.now env.lookupFails (TrimSpace raw) = (userID, true) →
      getUserRoles db userID env.rolesFail = .ok roles →
      env.revokeFails = false →
      (issueTokens lib st
        { db with refresh_tokens := db.refresh_tokens.map fun r =>
            if r.token_hash == hashToken lib (TrimSpace raw) then { r with revoked := true }
            else r }
        env.issue userID roles).1 = .error e →
      handleRefresh lib st db env ⟨"POST", auth, some ⟨raw⟩⟩ =
        (httpError "failed to issue tokens" 500,
          { db with refresh_tokens := db.refresh_tokens.map fun r =>
              if r.token_hash == hashToken lib (TrimSpace raw) then { r with revoked := true }
              else r }) ∧
      ∀ (ops : List Op) (now : Time) (fails : Bool),
        validateRefreshToken lib
          (runOps lib st (handleRefresh lib st db env ⟨"POST", auth, some ⟨raw⟩⟩).2 ops)
          now fails (TrimSpace raw) = ("", false)) := by
  refine ⟨?_, ?_, ?_⟩
  · intro hv
    rcases hv' : validateRefreshToken lib db env.now env.lookupFails (TrimSpace raw)
      with ⟨u, ok⟩
    rw [hv'] at hv
    dsimp only at hv
    subst hv
    unfold handleRefresh
    simp [hne, hv']
  · intro userID e hv hr
    unfold handleRefresh
    simp [hne, hv, hr]
  · intro userID roles e hv hr hrf hi
    obtain ⟨rec, _, hmem, hhash, _, _, _, _⟩ := validate_true lib db env.now _ _ _ hv
    have hrk : revokeRefreshToken lib db env.revokeFails (TrimSpace raw) =
        (none, { db with refresh_tokens := db.refresh_tokens.map fun r =>
          if r.token_hash == hashToken lib (TrimSpace raw) then { r with revoked := true }
          else r }) := by
      unfold revokeRefreshToken DB.updateRevoked
      simp [hrf]
    have hs := revoke_spent lib db env.revokeFails (TrimSpace raw) ⟨rec, hmem, hhash⟩
      (by rw [hrk])
    rw [hrk] at hs
    have hdb : (issueTokens lib st
        { db with refresh_tokens := db.refresh_tokens.map fun r =>
            if r.token_hash == hashToken lib (TrimSpace raw) then { r with revoked := true }
            else r }
        env.issue userID roles) = (.error e,
        { db with refresh_tokens := db.refresh_tokens.map fun r =>
            if r.token_hash == hashToken lib (TrimSpace raw) then { r with revoked := true }
            else r }) := by
      rcases issueTokens_cases lib st _ env.issue userID roles with
        ⟨_, _, _, _, _, _, heq⟩ | ⟨e', heq, _⟩
      · rw [heq] at hi; cases hi
      · rw [heq] at hi ⊢
        cases hi
        rfl
    have hres : handleRefresh lib st db env ⟨"POST", auth, some ⟨raw⟩⟩ =
        (httpError "failed to issue tokens" 500,
          { db with refresh_tokens := db.refresh_tokens.map fun r =>
              if r.token_hash == hashToken lib (TrimSpace raw) then { r with revoked := true }
              else r }) := by
      unfold handleRefresh
      simp only [hv, hr, hrk, hdb]
      simp [hne]
    refine ⟨hres, ?_⟩
    intro ops now fails
    rw [hres]
    exact validate_spent lib _ now fails _
      (runOps_keeps (spent_invariant _) lib st ops _ (fun _ _ _ _ => trivial) hs)

/-- C20, at a concrete input: `tokA` is presented and the INSERT of the
replacement fails; the answer is 500, the record of `tokA` is revoked and
nothing else has changed. -/
theorem failed_refresh_effect_witness :
    TrimSpace "tokA" ≠ "" ∧
    handleRefresh demo demoState demoDB
        { demoEnv 4000000000 7 with
          issue := { (demoEnv 4000000000 7).issue with insertFails := true } }
        ⟨"POST", "", some ⟨"tokA"⟩⟩ =
      (httpError "failed to issue tokens" 500,
        { demoDB with refresh_tokens := [{ demoRecord with revoked := true }] }) :=
  ⟨by decide,
    ((failed_refresh_effect demo demoState demoDB
      { demoEnv 4000000000 7 with
        issue := { (demoEnv 4000000000 7).issue with insertFails := true } }
      "" "tokA" (by decide)).2.2 "u1" ["user"] "insert" (by decide) rfl rfl rfl).1⟩

/-! ## The refresh value (C16) -/

theorem urlIndex_urlChar : ∀ n, n < 64 → urlIndex (urlChar n) = n := by decide

theorem urlChar_mem (n : Nat) : urlChar n ∈ encodeURL := by
  unfold urlChar
  rw [List.getD_eq_getElem?_getD]
  cases h : encodeURL[n]? with
  | none => simp only [Option.getD_none]; decide
  | some c =>
    simp only [Option.getD_some]
    exact List.getElem?_mem h

theorem encodeURL_safe : ∀ c ∈ encodeURL, isURLSafe c = true := by decide

theorem encodeURL_not_space : ∀ c ∈ encodeURL, isSpace c = false := by decide

theorem rawURLEncodeChars_mem (bs : List Nat) : ∀ c ∈ rawURLEncodeChars bs, c ∈ encodeURL := by
  induction bs using rawURLEncodeChars.induct with
  | case1 b0 b1 b2 rest ih =>
    intro c hc
    simp only [rawURLEncodeChars, List.mem_cons] at hc
    rcases hc with rfl | rfl | rfl | rfl | hc
    · exact urlChar_mem _
    · exact urlChar_mem _
    · exact urlChar_mem _
    · exact urlChar_mem _
    · exact ih c hc
  | case2 b0 b1 =>
    intro c hc
    simp only [rawURLEncodeChars, List.mem_cons, List.mem_singleton, List.not_mem_nil,
      or_false] at hc
    rcases hc with rfl | rfl | rfl <;> exact urlChar_mem _
  | case3 b0 =>
    intro c hc
    simp only [rawURLEncodeChars, List.mem_cons, List.mem_singleton, List.not_mem_nil,
      or_false] at hc
    rcases hc with rfl | rfl <;> exact urlChar_mem _
  | case4 =>
    intro c hc
    simp [rawURLEncodeChars] at hc

theorem rawURLEncodeChars_length (bs : List Nat) :
    (rawURLEncodeChars bs).length = (4 * bs.length + 2) / 3 := by
  induction bs using rawURLEncodeChars.induct with
  | case1 b0 b1 b2 rest ih =>
    simp only [rawURLEncodeChars, List.length_cons, ih]
    omega
  | case2 b0 b1 => simp [rawURLEncodeChars]
  | case3 b0 => simp [rawURLEncodeChars]
  | case4 => simp [rawURLEncodeChars]

theorem rawURLDecode_encode (bs : List Nat) (hb : ∀ x ∈ bs, x < 256) :
    rawURLDecodeChars (rawURLEncodeChars bs) = bs := by
  induction bs using rawURLEncodeChars.induct with
  | case1 b0 b1 b2 rest ih =>
    have h0 := hb b0 (by simp)
    have h1 := hb b1 (by simp)
    have h2 := hb b2 (by simp)
    have hr := ih (fun x hx => hb x (by simp [hx]))
    simp only [rawURLEncodeChars, rawURLDecodeChars, hr]
    rw [urlIndex_urlChar _ (by omega), urlIndex_urlChar _ (by omega),
      urlIndex_urlChar _ (by omega), urlIndex_urlChar _ (by omega)]
    congr 1
    · omega
    · congr 1
      · omega
      · congr 1
        omega
  | case2 b0 b1 =>
    have h0 := hb b0 (by simp)
    have h1 := hb b1 (by simp)
    simp only [rawURLEncodeChars, rawURLDecodeChars]
    rw [urlIndex_urlChar _ (by omega), urlIndex_urlChar _ (by omega),
      urlIndex_urlChar _ (by omega)]
    congr 1
    · omega
    · congr 1
      omega
  | case3 b0 =>
    have h0 := hb b0 (by simp)
    simp only [rawURLEncodeChars, rawURLDecodeChars]
    rw [urlIndex_urlChar _ (by omega), urlIndex_urlChar _ (by omega)]
    congr 1
    omega
  | case4 => rfl

theorem rawURLEncode_injective (a b : List Nat) (ha : ∀ x ∈ a, x < 256)
    (hb : ∀ x ∈ b, x < 256) (h : rawURLEncode a = rawURLEncode b) : a = b := by
  have hc : rawURLEncodeChars a = rawURLEncodeChars b := by
    unfold rawURLEncode at h
    exact congrArg String.data h
  rw [← rawURLDecode_encode a ha, ← rawURLDecode_encode b hb, hc]

theorem issueTokens_refresh (lib : Lib) (st : appState) (db db' : DB) (env : IssueEnv)
    (userID : String) (roles : List String) (resp : tokenResponse) (b : List Nat)
    (hr : env.rand = some b)
    (h : issueTokens lib st db env userID roles = (.ok resp, db')) :
    resp.RefreshToken = rawURLEncode b ∧
    db' = { db with refresh_tokens := db.refresh_tokens ++
      [{ user_id := userID, token_hash := hashToken lib (rawURLEncode b),
         expires_at := Time.Add env.now st.refreshTTL, revoked := false }] } ∧
    ∀ r ∈ db.refresh_tokens, r.token_hash ≠ hashToken lib (rawURLEncode b) := by
  rcases issueTokens_cases lib st db env userID roles with
    ⟨access, b', _, hr', _, hfresh, heq⟩ | ⟨e, heq, _⟩
  · rw [hr] at hr'
    cases hr'
    rw [heq] at h
    simp only [Prod.mk.injEq, Except.ok.injEq] at h
    obtain ⟨rfl, rfl⟩ := h
    exact ⟨rfl, rfl, hfresh⟩
  · rw [heq] at h
    cases h

/-- C16: for every draw of 32 bytes, `newRefreshToken` returns the unpadded
URL-safe encoding of the draw: a string of 43 characters, each of them one of
A–Z, a–z, 0–9, `-`, `_`.  Two draws of 32 bytes with the same token are the same
draw, so the token carries all 256 bits.  The refresh token in a response of
`issueTokens` is this function of the draw alone, whatever the principal, the
roles, the state and the store. -/
theorem newRefreshToken_shape (b : List Nat) (hlen : b.length = 32)
    (hbyte : ∀ x ∈ b, x < 256) :
    newRefreshToken (some b) = .ok (rawURLEncode b) ∧
    (rawURLEncode b).length = 43 ∧
    (∀ c ∈ (rawURLEncode b).toList, isURLSafe c = true) ∧
    (∀ b' : List Nat, b'.length = 32 → (∀ x ∈ b', x < 256) →
      newRefreshToken (some b') = newRefreshToken (some b) → b' = b) ∧
    (∀ (lib : Lib) (st : appState) (db db' : DB) (env : IssueEnv) (userID : String)
      (roles : List String) (resp : tokenResponse), env.rand = some b →
      issueTokens lib st db env userID roles = (.ok resp, db') →
      resp.RefreshToken = rawURLEncode b) := by
  refine ⟨rfl, ?_, ?_, ?_, ?_⟩
  · show (rawURLEncodeChars b).length = 43
    rw [rawURLEncodeChars_length, hlen]
  · intro c hc
    exact encodeURL_safe c (rawURLEncodeChars_mem b c hc)
  · intro b' _ hb' h
    simp only [newRefreshToken, Except.ok.injEq] at h
    exact rawURLEncode_injective b' b hb' hbyte h
  · intro lib st db db' env userID roles resp hr h
    exact (issueTokens_refresh lib st db db' env userID roles resp b hr h).1

/-- C16, at a concrete input: 32 bytes of value 7. -/
theorem newRefreshToken_shape_witness :
    (List.replicate 32 7).length = 32 ∧ (∀ x ∈ List.replicate 32 7, x < 256) ∧
    newRefreshToken (some (List.replicate 32 7)) =
      .ok "BwcHBwcHBwcHBwcHBwcHBwcHBwcHBwcHBwcHBwcHBwc" ∧
    (rawURLEncode (List.replicate 32 7)).length = 43 :=
  ⟨by decide, by decide, rfl,
    (newRefreshToken_shape (List.replicate 32 7) (by decide) (by decide)).2.1⟩

/-! ## Trimming and splitting -/

theorem trimLeft_cons_of_not_space (c : Char) (cs : List Char) (h : isSpace c = false) :
    trimLeft (c :: cs) = c :: cs := by
  simp [trimLeft, h]

theorem trimLeft_head (cs : List Char) :
    trimLeft cs = [] ∨ ∃ c rest, trimLeft cs = c :: rest ∧ isSpace c = false := by
  induction cs with
  | nil => exact Or.inl rfl
  | cons c cs ih =>
    unfold trimLeft
    cases hc : isSpace c with
    | true => simpa using ih
    | false => exact Or.inr ⟨c, cs, by simp, hc⟩

theorem trimSpaceChars_id (cs : List Char)
    (hhead : ∀ c ∈ cs.head?, isSpace c = false)
    (hlast : ∀ c ∈ cs.getLast?, isSpace c = false) : trimSpaceChars cs = cs := by
  unfold trimSpaceChars
  have h1 : trimLeft cs = cs := by
    cases cs with
    | nil => rfl
    | cons c rest => exact trimLeft_cons_of_not_space c rest (hhead c (by simp))
  rw [h1]
  have h2 : trimLeft cs.reverse = cs.reverse := by
    cases hr : cs.reverse with
    | nil => rfl
    | cons c rest =>
      apply trimLeft_cons_of_not_space
      apply hlast
      have : cs.reverse.head? = some c := by rw [hr]; rfl
      simpa [List.head?_reverse] using this
  rw [h2, List.reverse_reverse]

theorem trimSpaceChars_last (cs : List Char) :
    ∀ c ∈ (trimSpaceChars cs).getLast?, isSpace c = false := by
  intro c hc
  unfold trimSpaceChars at hc
  rw [List.getLast?_reverse] at hc
  rcases trimLeft_head (trimLeft cs).reverse with h | ⟨d, rest, h, hd⟩
  · rw [h] at hc; simp at hc
  · rw [h] at hc
    simp only [List.head?_cons, Option.mem_def, Option.some.injEq] at hc
    rw [← hc]; exact hd

theorem splitFirstSpace_append (a b : List Char) (ha : ' ' ∉ a) :
    splitFirstSpace (a ++ ' ' :: b) = some (a, b) := by
  induction a with
  | nil => simp [splitFirstSpace]
  | cons c a ih =>
    have hc : c ≠ ' ' := fun h => ha (by simp [h])
    have ha' : ' ' ∉ a := fun h => ha (by simp [h])
    simp [splitFirstSpace, hc, ih ha']

theorem splitFirstSpace_none (cs : List Char) (h : ' ' ∉ cs) : splitFirstSpace cs = none := by
  induction cs with
  | nil => rfl
  | cons c cs ih =>
    have hc : c ≠ ' ' := fun e => h (by simp [e])
    have h' : ' ' ∉ cs := fun e => h (by simp [e])
    simp [splitFirstSpace, hc, ih h']

/-! ## The bearer token of a header (C17) -/

theorem toLower_ascii (c : Char) (h : c.toLower.toNat < 128) : c.toNat < 128 := by
  by_cases hc : c.toNat ≥ 65 ∧ c.toNat ≤ 90
  · omega
  · have : c.toLower = c := by simp [Char.toLower, hc]
    rwa [this] at h

theorem toLower_not_space (c : Char) (h : c.toLower ≠ ' ') : c ≠ ' ' := by
  intro hc
  apply h
  rw [hc]
  decide

theorem bearerLetters_ascii : ∀ x ∈ "bearer ".toList, x.toNat < 128 ∧ x ≠ 'k' ∧ x ≠ 'i' := by
  decide

theorem lower_agrees (lib : Lib) (hlib : lib.UnicodeLower) (c x : Char)
    (hx : x ∈ "bearer ".toList) :
    (c.toLower = x → lib.toLowerRune c = x) ∧
    (lib.toLowerRune c = x → c.toLower = x ∧ c.toNat < 128) := by
  obtain ⟨hxa, hk, hi⟩ := bearerLetters_ascii x hx
  constructor
  · intro h
    have hc : c.toNat < 128 := toLower_ascii c (by rw [h]; exact hxa)
    rw [hlib.1 c hc, h]
  · intro h
    by_cases hc : c.toNat < 128
    · exact ⟨by rw [← hlib.1 c hc, h], hc⟩
    · exfalso
      rcases hlib.2 c (by omega) (by rw [h]; exact hxa) with h' | h'
      · exact hk (h.symm.trans h')
      · exact hi (h.symm.trans h')

theorem map_lower_agrees (lib : Lib) (hlib : lib.UnicodeLower) (p L : List Char)
    (hL : ∀ x ∈ L, x ∈ "bearer ".toList) :
    p.map lib.toLowerRune = L ↔ p.map Char.toLower = L := by
  induction p generalizing L with
  | nil => simp
  | cons c p ih =>
    cases L with
    | nil => simp
    | cons x L =>
      have hx := hL x (by simp)
      have hL' : ∀ y ∈ L, y ∈ "bearer ".toList := fun y hy => hL y (by simp [hy])
      simp only [List.map_cons, List.cons.injEq]
      constructor
      · rintro ⟨h1, h2⟩
        exact ⟨((lower_agrees lib hlib c x hx).2 h1).1, (ih L hL').1 h2⟩
      · rintro ⟨h1, h2⟩
        exact ⟨(lower_agrees lib hlib c x hx).1 h1, (ih L hL').2 h2⟩

theorem not_space_of_lower (c x : Char) (h : c.toLower = x) (hx : isSpace x = false) :
    isSpace c = false := by
  by_cases hc : c.toNat ≥ 65 ∧ c.toNat ≤ 90
  · unfold isSpace
    simp only [Bool.or_eq_false_iff, beq_eq_false_iff_ne, Bool.and_eq_false_iff,
      decide_eq_false_iff_not]
    omega
  · have : c.toLower = c := by simp [Char.toLower, hc]
    rw [this] at h
    rw [h]; exact hx

theorem toLower_bearer_iff (lib : Lib) (hlib : lib.UnicodeLower) (p : List Char) :
    ToLower lib (String.mk p) = "bearer" ↔ isBearerSpelling (String.mk p) = true := by
  have hL : ∀ x ∈ "bearer".toList, x ∈ "bearer ".toList := by decide
  have := map_lower_agrees lib hlib p "bearer".toList hL
  unfold ToLower isBearerSpelling
  simp only [beq_iff_eq]
  show String.mk (List.map lib.toLowerRune p) = "bearer" ↔
    List.map Char.toLower p = "bearer".toList
  rw [← this]
  constructor
  · intro h
    exact congrArg String.data h
  · intro h
    show String.mk (List.map lib.toLowerRune p) = String.mk "bearer".toList
    rw [h]

theorem bearerToken_of_split (lib : Lib) (h : String) (p0 p1 : List Char)
    (hne : TrimSpace h ≠ "")
    (hsplit : splitFirstSpace (TrimSpace h).toList = some (p0, p1)) :
    bearerToken lib h =
      if ToLower lib (String.mk p0) = "bearer" then TrimSpace (String.mk p1) else "" := by
  unfold bearerToken
  simp only [hsplit]
  simp [hne]

/-- C17: with `unicode.ToLower` as the Unicode tables have it (`UnicodeLower`):
for every header `S + " " + T` where `S` is `bearer` in any mix of upper and
lower case and `T` is not empty and has no white space at either end,
`bearerToken` returns exactly `T`; and for every header that has no space after
trimming, or whose text before the first space (after trimming) is not such a
spelling of `bearer`, `bearerToken` returns the empty string. -/
theorem bearerToken_spec (lib : Lib) (hlib : lib.UnicodeLower) :
    (∀ S T : String, isBearerSpelling S = true → T ≠ "" → TrimSpace T = T →
      bearerToken lib (S ++ " " ++ T) = T) ∧
    (∀ h : String, ' ' ∉ (TrimSpace h).toList → bearerToken lib h = "") ∧
    (∀ (h : String) (p0 p1 : List Char),
      splitFirstSpace (TrimSpace h).toList = some (p0, p1) →
      isBearerSpelling (String.mk p0) = false → bearerToken lib h = "") := by
  refine ⟨?_, ?_, ?_⟩
  · intro S T hS hT hTT
    obtain ⟨s⟩ := S
    obtain ⟨t⟩ := T
    have hs : s.map Char.toLower = "bearer".toList := by
      simpa [isBearerSpelling] using hS
    have htne : t ≠ [] := fun e => hT (by rw [e])
    have htt : trimSpaceChars t = t := congrArg String.data hTT
    have hlet : ∀ x ∈ "bearer".toList, isSpace x = false := by decide
    have hnosp : ∀ c ∈ s, isSpace c = false := by
      intro c hc
      apply not_space_of_lower c _ rfl
      apply hlet
      rw [← hs]
      exact List.mem_map_of_mem _ hc
    have hsne : s ≠ [] := by
      intro e; subst e; exact absurd hs (by decide)
    have hsp : ' ' ∉ s := by
      intro hc
      have := hnosp ' ' hc
      revert this; decide
    have hwhole : (String.mk s ++ " " ++ String.mk t).toList = s ++ ' ' :: t := by
      show (s ++ [' ']) ++ t = s ++ ' ' :: t
      simp
    have hhead : ∀ c ∈ (s ++ ' ' :: t).head?, isSpace c = false := by
      intro c hc
      cases s with
      | nil => exact absurd rfl hsne
      | cons a s' =>
        simp only [List.cons_append, List.head?_cons, Option.mem_def, Option.some.injEq] at hc
        subst hc
        exact hnosp _ (by simp)
    have hlast : ∀ c ∈ (s ++ ' ' :: t).getLast?, isSpace c = false := by
      intro c hc
      rcases List.eq_nil_or_concat t with e | ⟨t', z, e⟩
      · exact absurd e htne
      · have hz := trimSpaceChars_last t z (by rw [htt, e]; simp)
        rw [e] at hc
        have hcat : s ++ ' ' :: t'.concat z = (s ++ ' ' :: t') ++ [z] := by simp
        rw [hcat, List.getLast?_concat] at hc
        simp only [Option.mem_def, Option.some.injEq] at hc
        rw [← hc]; exact hz
    have htrim : TrimSpace (String.mk s ++ " " ++ String.mk t) =
        String.mk s ++ " " ++ String.mk t := by
      unfold TrimSpace
      rw [hwhole, trimSpaceChars_id _ hhead hlast]
      exact String.ext hwhole.symm
    have hsplit : splitFirstSpace (TrimSpace (String.mk s ++ " " ++ String.mk t)).toList
        = some (s, t) := by
      rw [htrim, hwhole]
      exact splitFirstSpace_append s t hsp
    have hne : TrimSpace (String.mk s ++ " " ++ String.mk t) ≠ "" := by
      rw [htrim]
      intro e
      have := congrArg String.toList e
      rw [hwhole] at this
      simp at this
    rw [bearerToken_of_split lib _ s t hne hsplit,
      if_pos ((toLower_bearer_iff lib hlib s).2 hS), hTT]
  · intro h hsp
    unfold bearerToken
    simp only [splitFirstSpace_none _ hsp]
    simp
  · intro h p0 p1 hsplit hnot
    have hne : TrimSpace h ≠ "" := by
      intro e
      rw [e] at hsplit
      simp [splitFirstSpace] at hsplit
    rw [bearerToken_of_split lib h p0 p1 hne hsplit, if_neg]
    intro hb
    rw [(toLower_bearer_iff lib hlib p0).1 hb] at hnot
    cases hnot

theorem demo_unicodeLower : demo.UnicodeLower := by
  constructor
  · intro c _
    rfl
  · intro c hc hl
    have : c.toNat < 128 := toLower_ascii c hl
    omega

/-- C17, at concrete inputs: a mixed-case scheme, another scheme, and a header
without a space. -/
theorem bearerToken_spec_witness :
    demo.UnicodeLower ∧
    bearerToken demo ("BeArEr" ++ " " ++ "abc.def") = "abc.def" ∧
    bearerToken demo "Basic abc" = "" ∧
    bearerToken demo " Bearer\t" = "" :=
  ⟨demo_unicodeLower,
    (bearerToken_spec demo demo_unicodeLower).1 "BeArEr" "abc.def" (by decide) (by decide)
      (by decide),
    (bearerToken_spec demo demo_unicodeLower).2.2 "Basic abc" "Basic".toList "abc".toList
      (by decide) (by decide),
    (bearerToken_spec demo demo_unicodeLower).2.1 " Bearer\t" (by decide)⟩

/-! ## Decoding bytes -/

theorem toNat_ofNat_valid (n : Nat) (h : n < 0xD800 ∨ (0xDFFF < n ∧ n < 0x110000)) :
    (Char.ofNat n).toNat = n := by
  have hv : n.isValidChar := h
  unfold Char.ofNat
  rw [dif_pos hv]
  rfl

theorem decodeRune_ascii (b0 : Nat) (rest : List Nat)
    (h : (decodeRune b0 rest).1.toNat < 128) :
    b0 < 128 ∧ decodeRune b0 rest = (Char.ofNat b0, 1) := by
  have herr : ¬ RuneError.toNat < 128 := by decide
  unfold decodeRune at h ⊢
  by_cases h1 : b0 < 0x80
  · simp [h1]
  · rw [if_neg h1] at h
    exfalso
    by_cases h2 : 0xC2 ≤ b0 ∧ b0 ≤ 0xDF
    · rw [if_pos h2] at h
      cases rest with
      | nil => exact herr h
      | cons b1 r =>
        dsimp only at h
        by_cases hc : isCont b1 = true
        · rw [if_pos hc] at h
          rw [toNat_ofNat_valid _ (by omega)] at h
          omega
        · rw [if_neg hc] at h
          exact herr h
    · rw [if_neg h2] at h
      by_cases h3 : 0xE0 ≤ b0 ∧ b0 ≤ 0xEF
      · rw [if_pos h3] at h
        match rest, h with
        | [], h => exact herr h
        | [_], h => exact herr h
        | b1 :: b2 :: r, h =>
          dsimp only at h
          by_cases hc : (if b0 = 0xE0 then 0xA0 else 0x80) ≤ b1 ∧
              b1 ≤ (if b0 = 0xED then 0x9F else 0xBF) ∧ isCont b2 = true
          · rw [if_pos hc] at h
            obtain ⟨hlo, hhi, hc2⟩ := hc
            simp only [isCont, Bool.and_eq_true, decide_eq_true_eq] at hc2
            have hv : (b0 % 16 * 4096 + b1 % 64 * 64 + b2 % 64) < 0xD800 ∨
                (0xDFFF < (b0 % 16 * 4096 + b1 % 64 * 64 + b2 % 64) ∧
                  (b0 % 16 * 4096 + b1 % 64 * 64 + b2 % 64) < 0x110000) := by
              split at hlo <;> split at hhi <;> omega
            rw [toNat_ofNat_valid _ hv] at h
            split at hlo <;> split at hhi <;> omega
          · rw [if_neg hc] at h
            exact herr h
      · rw [if_neg h3] at h
        by_cases h4 : 0xF0 ≤ b0 ∧ b0 ≤ 0xF4
        · rw [if_pos h4] at h
          match rest, h with
          | [], h => exact herr h
          | [_], h => exact herr h
          | [_, _], h => exact herr h
          | b1 :: b2 :: b3 :: r, h =>
            dsimp only at h
            by_cases hc : (if b0 = 0xF0 then 0x90 else 0x80) ≤ b1 ∧
                b1 ≤ (if b0 = 0xF4 then 0x8F else 0xBF) ∧ isCont b2 = true ∧ isCont b3 = true
            · rw [if_pos hc] at h
              obtain ⟨hlo, hhi, hc2, hc3⟩ := hc
              simp only [isCont, Bool.and_eq_true, decide_eq_true_eq] at hc2 hc3
              have hv : (b0 % 8 * 262144 + b1 % 64 * 4096 + b2 % 64 * 64 + b3 % 64) < 0xD800 ∨
                  (0xDFFF < (b0 % 8 * 262144 + b1 % 64 * 4096 + b2 % 64 * 64 + b3 % 64) ∧
                    (b0 % 8 * 262144 + b1 % 64 * 4096 + b2 % 64 * 64 + b3 % 64) < 0x110000) := by
                split at hlo <;> split at hhi <;> omega
              rw [toNat_ofNat_valid _ hv] at h
              split at hlo <;> split at hhi <;> omega
            · rw [if_neg hc] at h
              exact herr h
        · rw [if_neg h4] at h
          exact herr h

theorem utf8Char_head (c : Char) :
    ∃ h t, utf8Char c = h :: t ∧ (h < 128 → c.toNat = h ∧ t = []) := by
  unfold utf8Char
  dsimp only
  split
  · exact ⟨_, _, rfl, fun _ => ⟨rfl, rfl⟩⟩
  · split
    · exact ⟨_, _, rfl, fun h => by omega⟩
    · split
      · exact ⟨_, _, rfl, fun h => by omega⟩
      · exact ⟨_, _, rfl, fun h => by omega⟩

theorem lowerByte_toLower : ∀ b, b < 128 → ((Char.ofNat b).toLower).toNat = lowerByte b := by
  decide

theorem bearerBytes_chars :
    ∀ x ∈ bytesOf "bearer ", x < 128 ∧ Char.ofNat x ∈ "bearer ".toList := by
  decide

theorem hasPrefix_map_of_runes (lib : Lib) (hlib : lib.UnicodeLower) (p : List Nat)
    (hp : ∀ x ∈ p, x ∈ bytesOf "bearer ") (bs : List Nat)
    (h : HasPrefix ((runesFrom bs 0).flatMap fun c => utf8Char (lib.toLowerRune c)) p = true) :
    HasPrefix (bs.map lowerByte) p = true := by
  induction p generalizing bs with
  | nil => simp [HasPrefix]
  | cons x p ih =>
    cases bs with
    | nil => simp [runesFrom, HasPrefix] at h
    | cons b0 rest =>
      obtain ⟨hx128, hxc⟩ := bearerBytes_chars x (hp x (by simp))
      simp only [runesFrom, List.flatMap_cons] at h
      obtain ⟨hd, tl, hu, hprop⟩ := utf8Char_head (lib.toLowerRune (decodeRune b0 rest).1)
      rw [hu] at h
      simp only [List.cons_append, HasPrefix, Bool.and_eq_true, beq_iff_eq] at h
      obtain ⟨hhd, hrest⟩ := h
      subst hhd
      obtain ⟨hnat, htl⟩ := hprop hx128
      subst htl
      have hlow : lib.toLowerRune (decodeRune b0 rest).1 = Char.ofNat hd := by
        rw [← hnat, Char.ofNat_toNat]
      obtain ⟨hlower, hascii⟩ := (lower_agrees lib hlib _ _ hxc).2 hlow
      obtain ⟨hb0, hdec⟩ := decodeRune_ascii b0 rest hascii
      rw [hdec] at hrest hlower
      simp only [List.nil_append, Nat.sub_self] at hrest
      have hbyte : lowerByte b0 = hd := by
        rw [← lowerByte_toLower b0 hb0]
        simp only at hlower
        rw [hlower]
        exact toNat_ofNat_valid hd (by omega)
      simp only [List.map_cons, HasPrefix, Bool.and_eq_true, beq_iff_eq]
      exact ⟨hbyte, ih (fun y hy => hp y (by simp [hy])) rest hrest⟩

theorem hasPrefix_take (s p : List Nat) (h : HasPrefix s p = true) :
    p.length ≤ s.length ∧ s.take p.length = p := by
  induction p generalizing s with
  | nil => simp
  | cons x p ih =>
    cases s with
    | nil => simp [HasPrefix] at h
    | cons a s =>
      simp only [HasPrefix, Bool.and_eq_true, beq_iff_eq] at h
      obtain ⟨rfl, h2⟩ := h
      obtain ⟨h3, h4⟩ := ih s h2
      simp [h3, h4]

/-! ## The slice of the gateway's header (C19) -/

/-- C19: with `unicode.ToLower` as the Unicode tables have it (`UnicodeLower`),
for every header value, any list of bytes, whose lower-cased form starts with
the bytes of `bearer` and a space: the header has at least 7 bytes, its first 7
bytes are `bearer` in some mix of upper and lower case followed by a space, so
`authz[7:]` does not panic and is the header without these 7 bytes, and
`authMiddleware` returns a response. -/
theorem authz_slice_in_range (lib : Lib) (hlib : lib.UnicodeLower) (authz : List Nat)
    (hcheck : HasPrefix (ToLowerBytes lib authz) (bytesOf "bearer ") = true) :
    7 ≤ authz.length ∧
    (authz.take 7).map lowerByte = bytesOf "bearer " ∧
    sliceFrom authz 7 = some (authz.drop 7) ∧
    authz.take 7 ++ authz.drop 7 = authz ∧
    ∀ (cfg : Gateway.Config) (now : Time) (next : MapClaims → Gateway.Response),
      Gateway.authMiddleware lib cfg now authz next ≠ none := by
  have hmap : HasPrefix (authz.map lowerByte) (bytesOf "bearer ") = true := by
    unfold ToLowerBytes at hcheck
    split at hcheck
    · exact hcheck
    · exact hasPrefix_map_of_runes lib hlib _ (fun x hx => hx) authz hcheck
  obtain ⟨hlen, htake⟩ := hasPrefix_take _ _ hmap
  have h7 : (bytesOf "bearer ").length = 7 := by decide
  rw [h7] at hlen htake
  rw [List.length_map] at hlen
  have hslice : sliceFrom authz 7 = some (authz.drop 7) := by
    unfold sliceFrom
    rw [if_pos hlen]
  refine ⟨hlen, ?_, hslice, List.take_append_drop 7 authz, ?_⟩
  · rw [List.map_take]; exact htake
  · intro cfg now next
    unfold Gateway.authMiddleware
    rw [hslice]
    split
    · simp
    · dsimp only
      split <;> simp

/-- C19, at a concrete input: an upper-case scheme in front of bytes that are
not UTF-8. -/
theorem authz_slice_in_range_witness :
    demo.UnicodeLower ∧
    HasPrefix (ToLowerBytes demo (bytesOf "BEARER " ++ [0xFF, 0x41])) (bytesOf "bearer ")
      = true ∧
    sliceFrom (bytesOf "BEARER " ++ [0xFF, 0x41]) 7 = some [0xFF, 0x41] :=
  ⟨demo_unicodeLower, by decide,
    (authz_slice_in_range demo demo_unicodeLower (bytesOf "BEARER " ++ [0xFF, 0x41])
      (by decide)).2.2.1⟩

/-! ## A chain of rotations (C14) -/

theorem rawURLEncodeChars_ne_nil (b : List Nat) (hb : b ≠ []) : rawURLEncodeChars b ≠ [] := by
  intro h
  have := rawURLEncodeChars_length b
  rw [h] at this
  cases b with
  | nil => exact hb rfl
  | cons x l =>
    simp only [List.length_nil, List.length_cons] at this
    omega

theorem token_trimmed (b : List Nat) (hb : b ≠ []) :
    TrimSpace (rawURLEncode b) = rawURLEncode b ∧ rawURLEncode b ≠ "" := by
  have hmem := rawURLEncodeChars_mem b
  constructor
  · unfold TrimSpace rawURLEncode
    show String.mk (trimSpaceChars (rawURLEncodeChars b)) = _
    rw [trimSpaceChars_id]
    · intro c hc
      exact encodeURL_not_space c (hmem c (List.mem_of_mem_head? hc))
    · intro c hc
      exact encodeURL_not_space c (hmem c (List.mem_of_mem_getLast? hc))
  · intro h
    exact rawURLEncodeChars_ne_nil b hb (congrArg String.data h)

theorem handleLogin_ok (lib : Lib) (st : appState) (db : DB) (now : Time) (bytes : List Nat)
    (auth : String) (req : loginRequest) (u : User) (roles : List String) (access : String)
    (hemail : ToLower lib (TrimSpace req.Email) ≠ "") (hpass : TrimSpace req.Password ≠ "")
    (hrow : db.selectUserByEmail (ToLower lib (TrimSpace req.Email)) false = .ok u)
    (hstatus : u.status = "active")
    (hpw : lib.compareHashAndPassword u.password_hash (TrimSpace req.Password) = true)
    (hroles : getUserRoles db u.id false = .ok roles)
    (hsign : lib.signedString (accessClaims st now u.id roles) st.privateKey = some access)
    (hfresh : ∀ r ∈ db.refresh_tokens, r.token_hash ≠ hashToken lib (rawURLEncode bytes)) :
    handleLogin lib st db
        { lookupFails := false, rolesFail := false,
          issue := { now := now, rand := some bytes, insertFails := false } }
        ⟨"POST", auth, some req⟩ =
      (writeJSON 200 (.tokens
          { AccessToken := access, RefreshToken := rawURLEncode bytes, TokenType := "Bearer",
            ExpiresIn := Duration.SecondsInt64 st.accessTTL }),
        { db with refresh_tokens := db.refresh_tokens ++
            [{ user_id := u.id, token_hash := hashToken lib (rawURLEncode bytes),
               expires_at := Time.Add now st.refreshTTL, revoked := false }] }) := by
  have hany : ¬ ∃ x ∈ db.refresh_tokens, x.token_hash = hashToken lib (rawURLEncode bytes) := by
    rintro ⟨x, hx, hh⟩
    exact hfresh x hx hh
  unfold handleLogin
  simp only [hrow, hroles]
  unfold issueTokens newRefreshToken DB.insertRefreshToken
  simp [hemail, hpass, hstatus, hpw, hsign, hany]

theorem find_after_rotate (db : DB) (h hnew u : String) (e : Time)
    (hfresh : ∀ r ∈ db.refresh_tokens, r.token_hash ≠ hnew) :
    List.find? (fun (r : RefreshTokenRecord) => r.token_hash == hnew)
      ((db.refresh_tokens.map fun (r : RefreshTokenRecord) =>
          if r.token_hash == h then { r with revoked := true } else r) ++
        [{ user_id := u, token_hash := hnew, expires_at := e, revoked := false }]) =
      some { user_id := u, token_hash := hnew, expires_at := e, revoked := false } := by
  have hnone : List.find? (fun (r : RefreshTokenRecord) => r.token_hash == hnew)
      (db.refresh_tokens.map fun (r : RefreshTokenRecord) =>
        if r.token_hash == h then { r with revoked := true } else r) = none := by
    rw [List.find?_eq_none]
    intro r hr
    simp only [List.mem_map] at hr
    obtain ⟨r1, hr1, rfl⟩ := hr
    have := hfresh r1 hr1
    split <;> simpa using this
  rw [List.find?_append, hnone]
  simp

theorem spent_after_rotate (db : DB) (h hnew u : String) (e : Time) (o : String)
    (ho : Spent o db ∨ (o = h ∧ ∃ r ∈ db.refresh_tokens, r.token_hash = h))
    (hfresh : ∀ r ∈ db.refresh_tokens, r.token_hash ≠ hnew) :
    Spent o { db with refresh_tokens :=
      (db.refresh_tokens.map fun (r : RefreshTokenRecord) =>
        if r.token_hash == h then { r with revoked := true } else r) ++
      [{ user_id := u, token_hash := hnew, expires_at := e, revoked := false }] } := by
  have hup : db.updateRevoked h false = .ok { db with refresh_tokens :=
      (db.refresh_tokens.map fun (r : RefreshTokenRecord) =>
        if r.token_hash == h then { r with revoked := true } else r) } := by
    simp [DB.updateRevoked]
  have h1 : Spent o { db with refresh_tokens :=
      (db.refresh_tokens.map fun (r : RefreshTokenRecord) =>
        if r.token_hash == h then { r with revoked := true } else r) } := by
    rcases ho with hs | ⟨rfl, r0, hr0, hh0⟩
    · exact (spent_invariant o).update _ _ _ _ hs hup
    · constructor
      · exact ⟨{ r0 with revoked := true }, by
          simp only [List.mem_map]
          exact ⟨r0, hr0, by simp [hh0]⟩, hh0⟩
      · intro r hr hh
        simp only [List.mem_map] at hr
        obtain ⟨r1, hr1, rfl⟩ := hr
        by_cases hc : r1.token_hash = o
        · simp [hc]
        · simp only [beq_iff_eq, hc, if_false] at hh
  refine (spent_invariant o).insert _ u hnew e false _ h1 trivial ?_
  have hany : ¬ ∃ x ∈ db.refresh_tokens,
      (if x.token_hash = h then ({ x with revoked := true } : RefreshTokenRecord)
        else x).token_hash = hnew := by
    rintro ⟨x, hx, hh⟩
    apply hfresh x hx
    split at hh <;> exact hh
  simp [DB.insertRefreshToken, hany]

theorem chain_aux (lib : Lib) (st : appState) (uid : String) (roles : List String)
    (ur : List (String × String))
    (hR : ∀ d : DB, d.user_roles = ur → getUserRoles d uid false = .ok roles) :
    ∀ (steps : List Rotation) (db : DB) (t : String) (issued : Time) (olds : List String),
      db.user_roles = ur → TrimSpace t = t → t ≠ "" →
      db.refresh_tokens.find? (fun r => r.token_hash == hashToken lib t) =
        some { user_id := uid, token_hash := hashToken lib t,
               expires_at := Time.Add issued st.refreshTTL, revoked := false } →
      (∀ o ∈ olds, Spent (hashToken lib o) db) →
      (∀ s ∈ steps, s.bytes ≠ []) →
      (∀ s ∈ steps,
        (lib.signedString (accessClaims st s.issuedAt uid roles) st.privateKey).isSome) →
      (steps.map fun s => hashToken lib s.token).Nodup →
      (∀ s ∈ steps, ∀ r ∈ db.refresh_tokens, r.token_hash ≠ hashToken lib s.token) →
      live st.refreshTTL issued steps = true →
      ∃ dbN, refreshChain lib st db t (steps.map Rotation.env)
          = some (steps.map Rotation.token, dbN) ∧
        (∀ nowV, nowV ≤ (steps.map fun s => s.issuedAt).getLastD issued + st.refreshTTL →
          validateRefreshToken lib dbN nowV false ((steps.map Rotation.token).getLastD t)
            = (uid, true)) ∧
        (∀ o ∈ olds ++ (t :: steps.map Rotation.token).dropLast,
          Spent (hashToken lib o) dbN) := by
  intro steps
  induction steps with
  | nil =>
    intro db t issued olds _ _ _ hfind hold _ _ _ _ _
    refine ⟨db, rfl, ?_, ?_⟩
    · intro nowV hV
      exact validate_active lib db nowV t _ hfind rfl hV
    · intro o ho
      simp only [List.map_nil, List.dropLast_single, List.append_nil] at ho
      exact hold o ho
  | cons s rest ih =>
    intro db t issued olds hur htrim hne hfind hold hbytes hsign hnodup hfresh hlive
    obtain ⟨access, hacc⟩ := Option.isSome_iff_exists.mp (hsign s (by simp))
    simp only [live, Bool.and_eq_true, decide_eq_true_eq] at hlive
    obtain ⟨hexp, hlive'⟩ := hlive
    have hfind' : db.refresh_tokens.find?
        (fun r => r.token_hash == hashToken lib (TrimSpace t)) =
        some { user_id := uid, token_hash := hashToken lib t,
               expires_at := Time.Add issued st.refreshTTL, revoked := false } := by
      rw [htrim]; exact hfind
    have hmem : ∃ r ∈ db.refresh_tokens, r.token_hash = hashToken lib t :=
      ⟨_, List.mem_of_find?_eq_some hfind, rfl⟩
    have hfs : ∀ r ∈ db.refresh_tokens, r.token_hash ≠ hashToken lib (rawURLEncode s.bytes) :=
      hfresh s (by simp)
    have hstep := handleRefresh_ok lib st db s.now s.issuedAt s.bytes "" t _ roles access
      (by rw [htrim]; exact hne) hfind' rfl hexp (hR db hur) hacc hfs
    rw [htrim] at hstep
    obtain ⟨htt, htne⟩ := token_trimmed s.bytes (hbytes s (by simp))
    simp only [List.map_cons, List.nodup_cons, List.mem_map, not_exists, not_and] at hnodup
    obtain ⟨hnew, hnodup'⟩ := hnodup
    obtain ⟨dbN, hchain, hacc', hsp⟩ := ih
      { db with refresh_tokens :=
          (db.refresh_tokens.map fun (r : RefreshTokenRecord) =>
            if r.token_hash == hashToken lib t then { r with revoked := true } else r) ++
          [{ user_id := uid, token_hash := hashToken lib (rawURLEncode s.bytes),
             expires_at := Time.Add s.issuedAt st.refreshTTL, revoked := false }] }
      s.token s.issuedAt (olds ++ [t]) hur htt htne
      (find_after_rotate db _ _ uid _ hfs)
      (by
        intro o ho
        rcases List.mem_append.mp ho with ho | ho
        · exact spent_after_rotate db _ _ uid _ _ (Or.inl (hold o ho)) hfs
        · simp only [List.mem_singleton] at ho
          subst ho
          exact spent_after_rotate db _ _ uid _ _ (Or.inr ⟨rfl, hmem⟩) hfs)
      (fun x hx => hbytes x (by simp [hx]))
      (fun x hx => hsign x (by simp [hx]))
      hnodup'
      (by
        intro x hx r hr
        rcases List.mem_append.mp hr with hr | hr
        · simp only [List.mem_map] at hr
          obtain ⟨r1, hr1, rfl⟩ := hr
          have := hfresh x (by simp [hx]) r1 hr1
          split <;> exact this
        · simp only [List.mem_singleton] at hr
          subst hr
          exact fun e => hnew x hx e.symm)
      hlive'
    refine ⟨dbN, ?_, ?_, ?_⟩
    · have hchain' : refreshChain lib st
          { db with refresh_tokens :=
              (db.refresh_tokens.map fun (r : RefreshTokenRecord) =>
                if r.token_hash == hashToken lib t then { r with revoked := true } else r) ++
              [{ user_id := uid, token_hash := hashToken lib (rawURLEncode s.bytes),
                 expires_at := Time.Add s.issuedAt st.refreshTTL, revoked := false }] }
          (rawURLEncode s.bytes) (rest.map Rotation.env) =
          some (rest.map Rotation.token, dbN) := hchain
      simp only [List.map_cons, refreshChain, Rotation.env, hstep, writeJSON, hchain']
      rfl
    · intro nowV hV
      simp only [List.map_cons, List.getLastD_cons] at hV ⊢
      exact hacc' nowV hV
    · intro o ho
      apply hsp
      simp only [List.map_cons, List.dropLast_cons₂, List.mem_append, List.mem_cons,
        List.mem_singleton] at ho ⊢
      tauto

theorem getUserRoles_of_user_roles (d d' : DB) (uid : String) (fails : Bool)
    (h : d'.user_roles = d.user_roles) : getUserRoles d' uid fails = getUserRoles d uid fails := by
  unfold getUserRoles DB.selectRoleNames
  rw [h]

/-- C14: a login in which every store call succeeds (the user row is found,
active, the password matches, signing works, the drawn value is new to the
store) followed by `N ≥ 1` refreshes in sequence, each presenting the refresh
token returned by the step before, with every store call succeeding, draws of
32 bytes whose hashes are pairwise distinct and new to the store, and no token
expired when it is presented (`live`): every step returns a token pair, the `N`
refresh tokens returned are pairwise distinct, and in the final store
`validateRefreshToken` accepts the last of them until it expires and rejects,
at every time, each of the earlier `N − 1` and the token of the login. -/
theorem rotation_chain (lib : Lib) (st : appState) (db : DB) (now0 : Time) (bytes0 : List Nat)
    (auth : String) (req : loginRequest) (u : User) (roles : List String) (access0 : String)
    (steps : List Rotation)
    (hemail : ToLower lib (TrimSpace req.Email) ≠ "") (hpass : TrimSpace req.Password ≠ "")
    (hrow : db.selectUserByEmail (ToLower lib (TrimSpace req.Email)) false = .ok u)
    (hstatus : u.status = "active")
    (hpw : lib.compareHashAndPassword u.password_hash (TrimSpace req.Password) = true)
    (hroles : getUserRoles db u.id false = .ok roles)
    (hsign0 : lib.signedString (accessClaims st now0 u.id roles) st.privateKey = some access0)
    (hsign : ∀ s ∈ steps,
      (lib.signedString (accessClaims st s.issuedAt u.id roles) st.privateKey).isSome)
    (hlen0 : bytes0.length = 32) (hlen : ∀ s ∈ steps, s.bytes.length = 32)
    (hnodup : (hashToken lib (rawURLEncode bytes0) ::
      steps.map fun s => hashToken lib s.token).Nodup)
    (hfresh0 : ∀ r ∈ db.refresh_tokens, r.token_hash ≠ hashToken lib (rawURLEncode bytes0))
    (hfresh : ∀ s ∈ steps, ∀ r ∈ db.refresh_tokens, r.token_hash ≠ hashToken lib s.token)
    (hlive : live st.refreshTTL now0 steps = true) (hN : steps ≠ []) :
    ∃ db0 dbN,
      handleLogin lib st db
          { lookupFails := false, rolesFail := false,
            issue := { now := now0, rand := some bytes0, insertFails := false } }
          ⟨"POST", auth, some req⟩ =
        (writeJSON 200 (.tokens
            { AccessToken := access0, RefreshToken := rawURLEncode bytes0,
              TokenType := "Bearer", ExpiresIn := Duration.SecondsInt64 st.accessTTL }), db0) ∧
      refreshChain lib st db0 (rawURLEncode bytes0) (steps.map Rotation.env)
        = some (steps.map Rotation.token, dbN) ∧
      (steps.map Rotation.token).length = steps.length ∧
      (steps.map Rotation.token).Nodup ∧
      (∀ nowV, nowV ≤ (steps.map fun s => s.issuedAt).getLastD now0 + st.refreshTTL →
        validateRefreshToken lib dbN nowV false
          ((steps.map Rotation.token).getLastD (rawURLEncode bytes0)) = (u.id, true)) ∧
      (∀ t ∈ rawURLEncode bytes0 :: (steps.map Rotation.token).dropLast,
        ∀ (now : Time) (fails : Bool), validateRefreshToken lib dbN now fails t = ("", false)) := by
  have hlogin := handleLogin_ok lib st db now0 bytes0 auth req u roles access0 hemail hpass
    hrow hstatus hpw hroles hsign0 hfresh0
  have hb0 : bytes0 ≠ [] := by
    intro e; rw [e] at hlen0; cases hlen0
  obtain ⟨htt, htne⟩ := token_trimmed bytes0 hb0
  simp only [List.nodup_cons, List.mem_map, not_exists, not_and] at hnodup
  obtain ⟨hnew0, hnodup'⟩ := hnodup
  have hfind0 : List.find? (fun (r : RefreshTokenRecord) =>
        r.token_hash == hashToken lib (rawURLEncode bytes0))
      (db.refresh_tokens ++
        [{ user_id := u.id, token_hash := hashToken lib (rawURLEncode bytes0),
           expires_at := Time.Add now0 st.refreshTTL, revoked := false }]) =
      some { user_id := u.id, token_hash := hashToken lib (rawURLEncode bytes0),
             expires_at := Time.Add now0 st.refreshTTL, revoked := false } := by
    have hnone : List.find? (fun (r : RefreshTokenRecord) =>
        r.token_hash == hashToken lib (rawURLEncode bytes0)) db.refresh_tokens = none := by
      rw [List.find?_eq_none]
      intro r hr
      simpa using hfresh0 r hr
    rw [List.find?_append, hnone]
    simp
  obtain ⟨dbN, hchain, hacc, hsp⟩ := chain_aux lib st u.id roles db.user_roles
    (fun d hd => by rw [getUserRoles_of_user_roles db d u.id false hd]; exact hroles)
    steps
    { db with refresh_tokens := db.refresh_tokens ++
        [{ user_id := u.id, token_hash := hashToken lib (rawURLEncode bytes0),
           expires_at := Time.Add now0 st.refreshTTL, revoked := false }] }
    (rawURLEncode bytes0) now0 [] rfl htt htne hfind0
    (by intro o ho; cases ho)
    (fun s hs e => by have := hlen s hs; rw [e] at this; cases this)
    hsign hnodup'
    (by
      intro s hs r hr
      rcases List.mem_append.mp hr with hr | hr
      · exact hfresh s hs r hr
      · simp only [List.mem_singleton] at hr
        subst hr
        exact fun e => hnew0 s hs e.symm)
    hlive
  refine ⟨_, dbN, hlogin, hchain, by simp, ?_, hacc, ?_⟩
  · have : ((steps.map Rotation.token).map (hashToken lib)).Nodup := by
      rw [List.map_map]
      exact hnodup'
    exact List.Nodup.of_map _ this
  · intro t ht now fails
    apply validate_spent
    apply hsp
    simp only [List.nil_append]
    cases hst : steps.map Rotation.token with
    | nil =>
      have : steps = [] := by simpa using hst
      exact absurd this hN
    | cons a l =>
      rw [hst] at ht
      simpa [List.dropLast_cons₂] using ht

/-- C14, at a concrete input: a login drawing 32 bytes of value 0 and two
rotations; the second rotation's token is accepted, the first one's and the
login's are rejected. -/
theorem rotation_chain_witness :
    ToLower demo (TrimSpace "a@b.c") ≠ "" ∧ TrimSpace "pw" ≠ "" ∧
    demoActiveDB.selectUserByEmail (ToLower demo (TrimSpace "a@b.c")) false = .ok demoUser ∧
    demoUser.status = "active" ∧
    demo.compareHashAndPassword demoUser.password_hash (TrimSpace "pw") = true ∧
    getUserRoles demoActiveDB demoUser.id false = .ok ["user"] ∧
    (∀ s ∈ demoSteps, s.bytes.length = 32) ∧
    (hashToken demo (rawURLEncode (List.replicate 32 0)) ::
      demoSteps.map fun s => hashToken demo s.token).Nodup ∧
    live demoState.refreshTTL 5000000000 demoSteps = true ∧
    ∃ db0 dbN,
      refreshChain demo demoState db0 (rawURLEncode (List.replicate 32 0))
          (demoSteps.map Rotation.env) = some (demoSteps.map Rotation.token, dbN) ∧
      (demoSteps.map Rotation.token).Nodup ∧
      validateRefreshToken demo dbN 6000000000 false
        ((demoSteps.map Rotation.token).getLastD (rawURLEncode (List.replicate 32 0)))
        = ("u1", true) ∧
      validateRefreshToken demo dbN 6000000000 false (rawURLEncode (List.replicate 32 0))
        = ("", false) :=
  have h := rotation_chain demo demoState demoActiveDB 5000000000 (List.replicate 32 0) ""
    ⟨"a@b.c", "pw"⟩ demoUser ["user"] "signed" demoSteps (by decide) (by decide) rfl
    (by decide) (by decide) rfl (by decide) (by decide) (by decide) (by decide) (by decide)
    (by decide) (by decide) (by decide) (by decide)
  ⟨by decide, by decide, rfl, by decide, by decide, rfl, by decide, by decide, by decide,
    h.elim fun db0 h' => h'.elim fun dbN hh =>
      ⟨db0, dbN, hh.2.1, hh.2.2.2.1, hh.2.2.2.2.1 6000000000 (by decide),
        hh.2.2.2.2.2 _ (List.mem_cons_self _ _) 6000000000 false⟩⟩

end AuthService

namespace Payments

open AuthService

/-! ## Readiness of the payments service (C18) -/

/-- C18: for every state of the payments service and every request method,
GET included, `/readyz` answers 200 with the body `ready` when `dbReady` is
true and 503 when it is false, and two states with the same `dbReady` get the
same answer. -/
theorem readyz_depends_on_dbReady (st st' : appState) (method method' : String) :
    (st.dbReady = true → readyz st method = { status := 200, body := .text "ready" }) ∧
    (st.dbReady = false → (readyz st method).status = 503) ∧
    (st.dbReady = st'.dbReady → readyz st method = readyz st' method') := by
  refine ⟨?_, ?_, ?_⟩
  · intro h
    simp [readyz, h, writeText]
  · intro h
    simp [readyz, h, httpError]
  · intro h
    simp [readyz, h]

/-- C18, at the inputs of the two tests. -/
theorem readyz_depends_on_dbReady_witness :
    readyz { dbReady := true, db := none } "GET" = { status := 200, body := .text "ready" } ∧
    (readyz { dbReady := false, db := none } "GET").status = 503 :=
  ⟨(readyz_depends_on_dbReady { dbReady := true, db := none } { dbReady := true, db := some 1 }
      "GET" "GET").1 rfl,
    (readyz_depends_on_dbReady { dbReady := false, db := none }
      { dbReady := false, db := some 1 } "GET" "GET").2.1 rfl⟩

end Payments
